import Mathlib

/-!
Verification of the `node_validator::validator_pool` Move module.

The module is shallowly embedded: `u64` values become `Nat` with explicit
overflow/underflow checks (Move aborts on any arithmetic overflow, underflow
or division by zero, and `balance::split` aborts when the balance is
insufficient), and every fallible operation returns `Except Err α`.  A Move
abort rolls back the whole transaction, so an operation that returns
`.error` produces no successor state.  Coin objects are modelled by their
`u64` value; object ids are drawn from a fresh-id counter carried by the
transaction context, mirroring `object::new(ctx)`.
-/

/-- Pool state `COLLECTING` (pool accepting stakes). -/
def COLLECTING : Nat := 0

/-- Pool state `READY` (threshold met, ready for activation). -/
def READY : Nat := 1

/-- Pool state `ACTIVE` (validator running, earning rewards). -/
def ACTIVE : Nat := 2

/-- Abort code `E_UNAUTHORIZED`. -/
def E_UNAUTHORIZED : Nat := 1001

/-- Abort code `E_INVALID_STATE`. -/
def E_INVALID_STATE : Nat := 1002

/-- Abort code `E_INSUFFICIENT_STAKE`. -/
def E_INSUFFICIENT_STAKE : Nat := 1003

/-- Abort code `E_ZERO_AMOUNT`. -/
def E_ZERO_AMOUNT : Nat := 1004

/-- Abort code `E_WITHDRAWAL_NOT_ALLOWED`. -/
def E_WITHDRAWAL_NOT_ALLOWED : Nat := 1007

/-- Failure of a Move call: an explicit `abort code`, a native arithmetic
abort (overflow, underflow, division by zero), the `balance::split`
not-enough abort, or — an artifact of the flattened object store used by the
step relation — addressing a contributor object that does not exist. -/
inductive Err where
  | abort (code : Nat)
  | arith
  | notEnough
  | noSuchObject
deriving DecidableEq

instance {ε α : Type} [DecidableEq ε] [DecidableEq α] :
    DecidableEq (Except ε α) := fun x y =>
  match x, y with
  | .error a, .error b => decidable_of_iff (a = b) (by simp)
  | .error _, .ok _ => .isFalse (by simp)
  | .ok _, .error _ => .isFalse (by simp)
  | .ok a, .ok b => decidable_of_iff (a = b) (by simp)

/-- `2 ^ 64`, the size of the `u64` value space. -/
def U64_SIZE : Nat := 18446744073709551616

/-- Checked `u64` addition: Move aborts on overflow. -/
def add64 (a b : Nat) : Except Err Nat :=
  if a + b < U64_SIZE then .ok (a + b) else .error .arith

/-- Checked `u64` subtraction: Move aborts on underflow. -/
def sub64 (a b : Nat) : Except Err Nat :=
  if b ≤ a then .ok (a - b) else .error .arith

/-- Checked `u64` multiplication: Move aborts on overflow. -/
def mul64 (a b : Nat) : Except Err Nat :=
  if a * b < U64_SIZE then .ok (a * b) else .error .arith

/-- `balance::split`: deducts `amt` from `bal`, aborting when `bal` holds
less than `amt` — payouts are structurally unable to exceed the balance. -/
def splitBalance (bal amt : Nat) : Except Err Nat :=
  if amt ≤ bal then .ok (bal - amt) else .error .notEnough

/-- Transaction context: the sender address and the fresh-id counter that
backs `object::new`. -/
structure TxContext where
  sender : Nat
  fresh : Nat
deriving DecidableEq

/-- The `ValidatorPool` struct of the module. -/
structure ValidatorPool where
  id : Nat
  required_stake : Nat
  total_stake : Nat
  operator : Nat
  operator_reward_pct : Nat
  status : Nat
  accumulated_reward : Nat
  reward_per_stake : Nat
  balance : Nat
deriving DecidableEq

/-- The `Contributor` struct of the module. -/
structure Contributor where
  id : Nat
  pool_id : Nat
  owner : Nat
  staked_amount : Nat
  reward_debt : Nat
deriving DecidableEq

/-- The `OperatorCap` struct of the module. -/
structure OperatorCap where
  id : Nat
  pool_id : Nat
deriving DecidableEq

/-- `create_pool`: asserts `operator_reward_pct <= 100` and
`required_stake > 0` (both with abort code `E_ZERO_AMOUNT`, exactly as in
the source), then returns the zero-initialised pool and the operator
capability bound to the pool id. -/
def create_pool (required_stake operator_reward_pct : Nat) (ctx : TxContext) :
    Except Err (ValidatorPool × OperatorCap × TxContext) :=
  if ¬ (operator_reward_pct ≤ 100) then .error (.abort E_ZERO_AMOUNT)
  else if ¬ (required_stake > 0) then .error (.abort E_ZERO_AMOUNT)
  else
    .ok ({ id := ctx.fresh
           required_stake := required_stake
           total_stake := 0
           operator := ctx.sender
           operator_reward_pct := operator_reward_pct
           status := COLLECTING
           accumulated_reward := 0
           reward_per_stake := 0
           balance := 0 },
         { id := ctx.fresh + 1, pool_id := ctx.fresh },
         { ctx with fresh := ctx.fresh + 2 })

/-- `stake`: requires status `COLLECTING` or `READY` and a positive amount,
joins the coin into the balance, bumps `total_stake`, flips
`COLLECTING → READY` once the threshold is met, and mints the contributor
record with `reward_debt = reward_per_stake * amount / 1000000`. -/
def stake (pool : ValidatorPool) (stake_amount : Nat) (ctx : TxContext) :
    Except Err (ValidatorPool × Contributor × TxContext) :=
  if ¬ (pool.status = COLLECTING ∨ pool.status = READY) then
    .error (.abort E_INVALID_STATE)
  else if ¬ (stake_amount > 0) then .error (.abort E_ZERO_AMOUNT)
  else
    match add64 pool.balance stake_amount with
    | .error e => .error e
    | .ok newBalance =>
      match add64 pool.total_stake stake_amount with
      | .error e => .error e
      | .ok newTotal =>
        match mul64 pool.reward_per_stake stake_amount with
        | .error e => .error e
        | .ok debtNum =>
          .ok ({ pool with
                  balance := newBalance
                  total_stake := newTotal
                  status :=
                    if newTotal ≥ pool.required_stake ∧ pool.status = COLLECTING
                    then READY else pool.status },
               { id := ctx.fresh
                 pool_id := pool.id
                 owner := ctx.sender
                 staked_amount := stake_amount
                 reward_debt := debtNum / 1000000 },
               { ctx with fresh := ctx.fresh + 1 })

/-- `activate_pool`: operator-only transition `READY → ACTIVE`.  The
capability argument is unused by the source body (`_operator_cap`); the
authorization is object possession plus the `sender == pool.operator`
check. -/
def activate_pool (pool : ValidatorPool) (_operator_cap : OperatorCap)
    (ctx : TxContext) : Except Err ValidatorPool :=
  if ¬ (pool.status = READY) then .error (.abort E_INVALID_STATE)
  else if ¬ (ctx.sender = pool.operator) then .error (.abort E_UNAUTHORIZED)
  else .ok { pool with status := ACTIVE }

/-- `record_reward`: permissionless reward intake on an `ACTIVE` pool; the
coin joins the balance, `accumulated_reward` grows, and when
`total_stake > 0` the scaled accumulator `reward_per_stake` grows by
`reward_amount * 1000000 / total_stake`. -/
def record_reward (pool : ValidatorPool) (reward_amount : Nat) :
    Except Err ValidatorPool :=
  if ¬ (pool.status = ACTIVE) then .error (.abort E_INVALID_STATE)
  else if ¬ (reward_amount > 0) then .error (.abort E_ZERO_AMOUNT)
  else
    match add64 pool.balance reward_amount with
    | .error e => .error e
    | .ok newBalance =>
      match add64 pool.accumulated_reward reward_amount with
      | .error e => .error e
      | .ok newAccumulated =>
        if pool.total_stake > 0 then
          match mul64 reward_amount 1000000 with
          | .error e => .error e
          | .ok num =>
            match add64 pool.reward_per_stake (num / pool.total_stake) with
            | .error e => .error e
            | .ok newRps =>
              .ok { pool with
                      balance := newBalance
                      accumulated_reward := newAccumulated
                      reward_per_stake := newRps }
        else
          .ok { pool with
                  balance := newBalance
                  accumulated_reward := newAccumulated }

/-- `claim_reward`: owner-only user claim on an `ACTIVE` pool.  The pending
reward is `staked_amount * reward_per_stake / 1000000 - reward_debt`; when
positive, the user share `pending * (100 - operator_reward_pct) / 100` is
split off the balance and the debt is settled to the recomputed
`staked_amount * reward_per_stake / 1000000`; otherwise an empty coin is
returned and nothing is mutated. -/
def claim_reward (pool : ValidatorPool) (contributor : Contributor)
    (ctx : TxContext) : Except Err (ValidatorPool × Contributor × Nat) :=
  if ¬ (pool.status = ACTIVE) then .error (.abort E_INVALID_STATE)
  else if ¬ (contributor.owner = ctx.sender) then .error (.abort E_UNAUTHORIZED)
  else
    match mul64 contributor.staked_amount pool.reward_per_stake with
    | .error e => .error e
    | .ok num =>
      match sub64 (num / 1000000) contributor.reward_debt with
      | .error e => .error e
      | .ok pending_reward =>
        if pending_reward > 0 then
          match sub64 100 pool.operator_reward_pct with
          | .error e => .error e
          | .ok pctComp =>
            match mul64 pending_reward pctComp with
            | .error e => .error e
            | .ok shareNum =>
              match splitBalance pool.balance (shareNum / 100) with
              | .error e => .error e
              | .ok newBalance =>
                .ok ({ pool with balance := newBalance },
                     { contributor with reward_debt := num / 1000000 },
                     shareNum / 100)
        else .ok (pool, contributor, 0)

/-- `claim_operator_reward`: operator-only claim on an `ACTIVE` pool of
`accumulated_reward * operator_reward_pct / 100`; when positive the whole
`accumulated_reward` counter is reset to zero and the share is split off the
balance; otherwise an empty coin is returned and nothing is mutated. -/
def claim_operator_reward (pool : ValidatorPool) (_operator_cap : OperatorCap)
    (ctx : TxContext) : Except Err (ValidatorPool × Nat) :=
  if ¬ (pool.status = ACTIVE) then .error (.abort E_INVALID_STATE)
  else if ¬ (ctx.sender = pool.operator) then .error (.abort E_UNAUTHORIZED)
  else
    match mul64 pool.accumulated_reward pool.operator_reward_pct with
    | .error e => .error e
    | .ok shareNum =>
      if shareNum / 100 > 0 then
        match splitBalance pool.balance (shareNum / 100) with
        | .error e => .error e
        | .ok newBalance =>
          .ok ({ pool with accumulated_reward := 0, balance := newBalance },
               shareNum / 100)
      else .ok (pool, 0)

/-- `withdraw_stake`: owner-only withdrawal, allowed only in `COLLECTING` or
`READY` (abort `E_WITHDRAWAL_NOT_ALLOWED` otherwise); decrements the record
and the pool total, reverts `READY → COLLECTING` when the total drops below
the threshold, and splits the amount off the balance. -/
def withdraw_stake (pool : ValidatorPool) (contributor : Contributor)
    (amount : Nat) (ctx : TxContext) :
    Except Err (ValidatorPool × Contributor × Nat) :=
  if ¬ (pool.status = COLLECTING ∨ pool.status = READY) then
    .error (.abort E_WITHDRAWAL_NOT_ALLOWED)
  else if ¬ (contributor.owner = ctx.sender) then .error (.abort E_UNAUTHORIZED)
  else if ¬ (amount > 0) then .error (.abort E_ZERO_AMOUNT)
  else if ¬ (contributor.staked_amount ≥ amount) then
    .error (.abort E_INSUFFICIENT_STAKE)
  else
    match sub64 pool.total_stake amount with
    | .error e => .error e
    | .ok newTotal =>
      match splitBalance pool.balance amount with
      | .error e => .error e
      | .ok newBalance =>
        .ok ({ pool with
                total_stake := newTotal
                status :=
                  if newTotal < pool.required_stake ∧ pool.status = READY
                  then COLLECTING else pool.status
                balance := newBalance },
             { contributor with
                staked_amount := contributor.staked_amount - amount },
             amount)

/-- `destroy_empty_contributor`: deletes a record, aborting with
`E_INSUFFICIENT_STAKE` unless `staked_amount == 0`. -/
def destroy_empty_contributor (contributor : Contributor) : Except Err Unit :=
  if contributor.staked_amount = 0 then .ok ()
  else .error (.abort E_INSUFFICIENT_STAKE)

/-- `calculate_pending_reward` view function. -/
def calculate_pending_reward (pool : ValidatorPool) (contributor : Contributor) :
    Except Err Nat :=
  if pool.status ≠ ACTIVE ∨ contributor.staked_amount = 0 then .ok 0
  else
    match mul64 contributor.staked_amount pool.reward_per_stake with
    | .error e => .error e
    | .ok num =>
      match sub64 (num / 1000000) contributor.reward_debt with
      | .error e => .error e
      | .ok total_reward =>
        match sub64 100 pool.operator_reward_pct with
        | .error e => .error e
        | .ok pctComp =>
          match mul64 total_reward pctComp with
          | .error e => .error e
          | .ok shareNum => .ok (shareNum / 100)

/-- `is_ready_for_activation` view function. -/
def is_ready_for_activation (pool : ValidatorPool) : Bool :=
  pool.status = READY

/-- `is_contributor_for_pool` view function. -/
def is_contributor_for_pool (contributor : Contributor) (pool : ValidatorPool) :
    Bool :=
  contributor.pool_id = pool.id

/-- One pool together with the live contributor records of that pool and
the fresh-id counter: the durable objects a sequence of module calls
touches. -/
structure Config where
  pool : ValidatorPool
  cap : OperatorCap
  contribs : List Contributor
  nextId : Nat
deriving DecidableEq

/-- One invocation of a state-changing entry point of the module;
contributor-record arguments are addressed by their index in the store. -/
inductive Op where
  | opStake (amount sender : Nat)
  | opActivate (sender : Nat)
  | opRecordReward (amount : Nat)
  | opClaimReward (i : Nat) (sender : Nat)
  | opClaimOperatorReward (sender : Nat)
  | opWithdrawStake (i : Nat) (amount sender : Nat)
  | opDestroyContributor (i : Nat)
deriving DecidableEq

/-- Apply one operation to a configuration; on abort no successor
configuration is produced. -/
def applyOp (op : Op) (cfg : Config) : Except Err Config :=
  match op with
  | .opStake amount sender =>
    match stake cfg.pool amount ⟨sender, cfg.nextId⟩ with
    | .error e => .error e
    | .ok (pool, c, ctx) =>
      .ok { cfg with pool := pool, contribs := cfg.contribs ++ [c], nextId := ctx.fresh }
  | .opActivate sender =>
    match activate_pool cfg.pool cfg.cap ⟨sender, cfg.nextId⟩ with
    | .error e => .error e
    | .ok pool => .ok { cfg with pool := pool }
  | .opRecordReward amount =>
    match record_reward cfg.pool amount with
    | .error e => .error e
    | .ok pool => .ok { cfg with pool := pool }
  | .opClaimReward i sender =>
    match cfg.contribs[i]? with
    | none => .error .noSuchObject
    | some c =>
      match claim_reward cfg.pool c ⟨sender, cfg.nextId⟩ with
      | .error e => .error e
      | .ok (pool, c2, _) =>
        .ok { cfg with pool := pool, contribs := cfg.contribs.set i c2 }
  | .opClaimOperatorReward sender =>
    match claim_operator_reward cfg.pool cfg.cap ⟨sender, cfg.nextId⟩ with
    | .error e => .error e
    | .ok (pool, _) => .ok { cfg with pool := pool }
  | .opWithdrawStake i amount sender =>
    match cfg.contribs[i]? with
    | none => .error .noSuchObject
    | some c =>
      match withdraw_stake cfg.pool c amount ⟨sender, cfg.nextId⟩ with
      | .error e => .error e
      | .ok (pool, c2, _) =>
        .ok { cfg with pool := pool, contribs := cfg.contribs.set i c2 }
  | .opDestroyContributor i =>
    match cfg.contribs[i]? with
    | none => .error .noSuchObject
    | some c =>
      match destroy_empty_contributor c with
      | .error e => .error e
      | .ok _ => .ok { cfg with contribs := cfg.contribs.eraseIdx i }

/-- The host transaction semantics: a committed operation replaces the
configuration, an aborted one discards every partial effect. -/
def execOp (op : Op) (cfg : Config) : Config :=
  match applyOp op cfg with
  | .ok cfg2 => cfg2
  | .error _ => cfg

/-- Configurations reachable from `create_pool` by any sequence of
successful operations. -/
inductive Reachable : Config → Prop where
  | init (required_stake operator_reward_pct : Nat) (ctx : TxContext)
      (pool : ValidatorPool) (cap : OperatorCap) (ctx2 : TxContext)
      (h : create_pool required_stake operator_reward_pct ctx =
             .ok (pool, cap, ctx2)) :
      Reachable ⟨pool, cap, [], ctx2.fresh⟩
  | step (op : Op) (cfg cfg2 : Config) (h1 : Reachable cfg)
      (h2 : applyOp op cfg = .ok cfg2) : Reachable cfg2

/-- Sum of `staked_amount` over the live contributor records. -/
def sumStaked (cs : List Contributor) : Nat :=
  (cs.map Contributor.staked_amount).sum

/-- Sum of `reward_debt` over the live contributor records. -/
def sumDebt (cs : List Contributor) : Nat :=
  (cs.map Contributor.reward_debt).sum

/-! ### Inversion lemmas for the checked `u64` primitives -/

theorem add64_ok {a b c : Nat} (h : add64 a b = .ok c) :
    c = a + b ∧ a + b < U64_SIZE := by
  unfold add64 at h
  split at h
  · exact ⟨by injection h; omega, by assumption⟩
  · simp at h

theorem sub64_ok {a b c : Nat} (h : sub64 a b = .ok c) :
    c = a - b ∧ b ≤ a := by
  unfold sub64 at h
  split at h
  · exact ⟨by injection h; omega, by assumption⟩
  · simp at h

theorem mul64_ok {a b c : Nat} (h : mul64 a b = .ok c) :
    c = a * b ∧ a * b < U64_SIZE := by
  unfold mul64 at h
  split at h
  · refine ⟨?_, by assumption⟩
    injection h with h
    omega
  · simp at h

theorem splitBalance_ok {bal amt c : Nat} (h : splitBalance bal amt = .ok c) :
    c = bal - amt ∧ amt ≤ bal := by
  unfold splitBalance at h
  split at h
  · exact ⟨by injection h; omega, by assumption⟩
  · simp at h

theorem add64_eq_ok {a b : Nat} (h : a + b < U64_SIZE) :
    add64 a b = .ok (a + b) := by
  unfold add64
  simp [h]

theorem sub64_eq_ok {a b : Nat} (h : b ≤ a) : sub64 a b = .ok (a - b) := by
  unfold sub64
  simp [h]

theorem mul64_eq_ok {a b : Nat} (h : a * b < U64_SIZE) :
    mul64 a b = .ok (a * b) := by
  unfold mul64
  simp [h]

theorem splitBalance_eq_ok {bal amt : Nat} (h : amt ≤ bal) :
    splitBalance bal amt = .ok (bal - amt) := by
  unfold splitBalance
  simp [h]

/-! ### Success characterisations of the operations -/

theorem create_pool_ok {rs pct : Nat} {ctx : TxContext}
    {out : ValidatorPool × OperatorCap × TxContext}
    (h : create_pool rs pct ctx = .ok out) :
    pct ≤ 100 ∧ 0 < rs ∧
    out = ({ id := ctx.fresh
             required_stake := rs
             total_stake := 0
             operator := ctx.sender
             operator_reward_pct := pct
             status := COLLECTING
             accumulated_reward := 0
             reward_per_stake := 0
             balance := 0 },
           { id := ctx.fresh + 1, pool_id := ctx.fresh },
           { ctx with fresh := ctx.fresh + 2 }) := by
  unfold create_pool at h
  split at h
  · simp at h
  next h1 =>
    split at h
    · simp at h
    next h2 =>
      injection h with h
      exact ⟨not_not.mp h1, not_not.mp h2, h.symm⟩

theorem stake_ok {pool : ValidatorPool} {a : Nat} {ctx : TxContext}
    {out : ValidatorPool × Contributor × TxContext}
    (h : stake pool a ctx = .ok out) :
    (pool.status = COLLECTING ∨ pool.status = READY) ∧ 0 < a ∧
    pool.balance + a < U64_SIZE ∧ pool.total_stake + a < U64_SIZE ∧
    pool.reward_per_stake * a < U64_SIZE ∧
    out = ({ pool with
             balance := pool.balance + a
             total_stake := pool.total_stake + a
             status :=
               if pool.total_stake + a ≥ pool.required_stake ∧
                   pool.status = COLLECTING
               then READY else pool.status },
           { id := ctx.fresh
             pool_id := pool.id
             owner := ctx.sender
             staked_amount := a
             reward_debt := pool.reward_per_stake * a / 1000000 },
           { ctx with fresh := ctx.fresh + 1 }) := by
  unfold stake at h
  split at h
  · simp at h
  next h1 =>
    split at h
    · simp at h
    next h2 =>
      split at h
      · simp at h
      next newBalance hBal =>
        split at h
        · simp at h
        next newTotal hTot =>
          split at h
          · simp at h
          next debtNum hDebt =>
            obtain ⟨rfl, hBal2⟩ := add64_ok hBal
            obtain ⟨rfl, hTot2⟩ := add64_ok hTot
            obtain ⟨rfl, hDebt2⟩ := mul64_ok hDebt
            injection h with h
            exact ⟨not_not.mp h1, not_not.mp h2, hBal2, hTot2, hDebt2, h.symm⟩

theorem activate_pool_ok {pool : ValidatorPool} {cap : OperatorCap}
    {ctx : TxContext} {pool2 : ValidatorPool}
    (h : activate_pool pool cap ctx = .ok pool2) :
    pool.status = READY ∧ ctx.sender = pool.operator ∧
    pool2 = { pool with status := ACTIVE } := by
  unfold activate_pool at h
  split at h
  · simp at h
  next h1 =>
    split at h
    · simp at h
    next h2 =>
      injection h with h
      exact ⟨not_not.mp h1, not_not.mp h2, h.symm⟩

theorem record_reward_ok {pool : ValidatorPool} {r : Nat}
    {pool2 : ValidatorPool} (h : record_reward pool r = .ok pool2) :
    pool.status = ACTIVE ∧ 0 < r ∧
    pool.balance + r < U64_SIZE ∧ pool.accumulated_reward + r < U64_SIZE ∧
    ((0 < pool.total_stake ∧ r * 1000000 < U64_SIZE ∧
      pool.reward_per_stake + r * 1000000 / pool.total_stake < U64_SIZE ∧
      pool2 = { pool with
                  balance := pool.balance + r
                  accumulated_reward := pool.accumulated_reward + r
                  reward_per_stake :=
                    pool.reward_per_stake + r * 1000000 / pool.total_stake }) ∨
     (pool.total_stake = 0 ∧
      pool2 = { pool with
                  balance := pool.balance + r
                  accumulated_reward := pool.accumulated_reward + r })) := by
  unfold record_reward at h
  split at h
  · simp at h
  next h1 =>
    split at h
    · simp at h
    next h2 =>
      split at h
      · simp at h
      next newBalance hBal =>
        split at h
        · simp at h
        next newAccumulated hAcc =>
          obtain ⟨rfl, hBal2⟩ := add64_ok hBal
          obtain ⟨rfl, hAcc2⟩ := add64_ok hAcc
          split at h
          next hPos =>
            split at h
            · simp at h
            next num hNum =>
              split at h
              · simp at h
              next newRps hRps =>
                obtain ⟨rfl, hNum2⟩ := mul64_ok hNum
                obtain ⟨rfl, hRps2⟩ := add64_ok hRps
                injection h with h
                exact ⟨not_not.mp h1, not_not.mp h2, hBal2, hAcc2,
                  Or.inl ⟨hPos, hNum2, hRps2, h.symm⟩⟩
          next hZero =>
            injection h with h
            exact ⟨not_not.mp h1, not_not.mp h2, hBal2, hAcc2,
              Or.inr ⟨by omega, h.symm⟩⟩

theorem claim_reward_ok {pool : ValidatorPool} {c : Contributor}
    {ctx : TxContext} {out : ValidatorPool × Contributor × Nat}
    (h : claim_reward pool c ctx = .ok out) :
    pool.status = ACTIVE ∧ c.owner = ctx.sender ∧
    c.staked_amount * pool.reward_per_stake < U64_SIZE ∧
    c.reward_debt ≤ c.staked_amount * pool.reward_per_stake / 1000000 ∧
    ((c.staked_amount * pool.reward_per_stake / 1000000 - c.reward_debt = 0 ∧
      out = (pool, c, 0)) ∨
     (0 < c.staked_amount * pool.reward_per_stake / 1000000 - c.reward_debt ∧
      pool.operator_reward_pct ≤ 100 ∧
      (c.staked_amount * pool.reward_per_stake / 1000000 - c.reward_debt) *
        (100 - pool.operator_reward_pct) < U64_SIZE ∧
      (c.staked_amount * pool.reward_per_stake / 1000000 - c.reward_debt) *
        (100 - pool.operator_reward_pct) / 100 ≤ pool.balance ∧
      out = ({ pool with
                 balance := pool.balance -
                   (c.staked_amount * pool.reward_per_stake / 1000000 -
                     c.reward_debt) * (100 - pool.operator_reward_pct) / 100 },
             { c with reward_debt :=
                 c.staked_amount * pool.reward_per_stake / 1000000 },
             (c.staked_amount * pool.reward_per_stake / 1000000 -
               c.reward_debt) * (100 - pool.operator_reward_pct) / 100))) := by
  unfold claim_reward at h
  split at h
  · simp at h
  next h1 =>
    split at h
    · simp at h
    next h2 =>
      split at h
      · simp at h
      next num hNum =>
        split at h
        · simp at h
        next pending hPend =>
          obtain ⟨rfl, hNum2⟩ := mul64_ok hNum
          obtain ⟨rfl, hPend2⟩ := sub64_ok hPend
          split at h
          next hPos =>
            split at h
            · simp at h
            next pctComp hPct =>
              split at h
              · simp at h
              next shareNum hShare =>
                split at h
                · simp at h
                next newBalance hSplit =>
                  obtain ⟨rfl, hPct2⟩ := sub64_ok hPct
                  obtain ⟨rfl, hShare2⟩ := mul64_ok hShare
                  obtain ⟨rfl, hSplit2⟩ := splitBalance_ok hSplit
                  injection h with h
                  exact ⟨not_not.mp h1, not_not.mp h2, hNum2, hPend2,
                    Or.inr ⟨hPos, hPct2, hShare2, hSplit2, h.symm⟩⟩
          next hZero =>
            injection h with h
            exact ⟨not_not.mp h1, not_not.mp h2, hNum2, hPend2,
              Or.inl ⟨by omega, h.symm⟩⟩

theorem claim_operator_reward_ok {pool : ValidatorPool} {cap : OperatorCap}
    {ctx : TxContext} {out : ValidatorPool × Nat}
    (h : claim_operator_reward pool cap ctx = .ok out) :
    pool.status = ACTIVE ∧ ctx.sender = pool.operator ∧
    pool.accumulated_reward * pool.operator_reward_pct < U64_SIZE ∧
    ((pool.accumulated_reward * pool.operator_reward_pct / 100 = 0 ∧
      out = (pool, 0)) ∨
     (0 < pool.accumulated_reward * pool.operator_reward_pct / 100 ∧
      pool.accumulated_reward * pool.operator_reward_pct / 100 ≤ pool.balance ∧
      out = ({ pool with
                 accumulated_reward := 0
                 balance := pool.balance -
                   pool.accumulated_reward * pool.operator_reward_pct / 100 },
             pool.accumulated_reward * pool.operator_reward_pct / 100))) := by
  unfold claim_operator_reward at h
  split at h
  · simp at h
  next h1 =>
    split at h
    · simp at h
    next h2 =>
      split at h
      · simp at h
      next shareNum hShare =>
        obtain ⟨rfl, hShare2⟩ := mul64_ok hShare
        split at h
        next hPos =>
          split at h
          · simp at h
          next newBalance hSplit =>
            obtain ⟨rfl, hSplit2⟩ := splitBalance_ok hSplit
            injection h with h
            exact ⟨not_not.mp h1, not_not.mp h2, hShare2,
              Or.inr ⟨hPos, hSplit2, h.symm⟩⟩
        next hZero =>
          injection h with h
          exact ⟨not_not.mp h1, not_not.mp h2, hShare2,
            Or.inl ⟨by omega, h.symm⟩⟩

theorem withdraw_stake_ok {pool : ValidatorPool} {c : Contributor}
    {a : Nat} {ctx : TxContext} {out : ValidatorPool × Contributor × Nat}
    (h : withdraw_stake pool c a ctx = .ok out) :
    (pool.status = COLLECTING ∨ pool.status = READY) ∧
    c.owner = ctx.sender ∧ 0 < a ∧ a ≤ c.staked_amount ∧
    a ≤ pool.total_stake ∧ a ≤ pool.balance ∧
    out = ({ pool with
              total_stake := pool.total_stake - a
              status :=
                if pool.total_stake - a < pool.required_stake ∧
                    pool.status = READY
                then COLLECTING else pool.status
              balance := pool.balance - a },
           { c with staked_amount := c.staked_amount - a },
           a) := by
  unfold withdraw_stake at h
  split at h
  · simp at h
  next h1 =>
    split at h
    · simp at h
    next h2 =>
      split at h
      · simp at h
      next h3 =>
        split at h
        · simp at h
        next h4 =>
          split at h
          · simp at h
          next newTotal hTot =>
            split at h
            · simp at h
            next newBalance hSplit =>
              obtain ⟨rfl, hTot2⟩ := sub64_ok hTot
              obtain ⟨rfl, hSplit2⟩ := splitBalance_ok hSplit
              injection h with h
              exact ⟨not_not.mp h1, not_not.mp h2, not_not.mp h3,
                not_not.mp h4, hTot2, hSplit2, h.symm⟩

theorem destroy_empty_contributor_ok {c : Contributor}
    (h : destroy_empty_contributor c = .ok ()) : c.staked_amount = 0 := by
  unfold destroy_empty_contributor at h
  split at h
  · assumption
  · simp at h

/-! ### List bookkeeping lemmas -/

theorem mem_of_getElem_some {cs : List Contributor} {i : Nat} {c : Contributor}
    (h : cs[i]? = some c) : c ∈ cs := by
  induction cs generalizing i with
  | nil => simp at h
  | cons x xs ih =>
    cases i with
    | zero =>
      simp only [List.getElem?_cons_zero, Option.some.injEq] at h
      exact h ▸ List.mem_cons_self x xs
    | succ n =>
      simp only [List.getElem?_cons_succ] at h
      exact List.mem_cons_of_mem x (ih h)

theorem mem_set_cases {cs : List Contributor} {i : Nat} {c2 x : Contributor}
    (h : x ∈ cs.set i c2) : x ∈ cs ∨ x = c2 := by
  induction cs generalizing i with
  | nil => simp at h
  | cons y ys ih =>
    cases i with
    | zero =>
      rcases List.mem_cons.mp h with h1 | h1
      · exact Or.inr h1
      · exact Or.inl (List.mem_cons_of_mem y h1)
    | succ n =>
      rcases List.mem_cons.mp h with h1 | h1
      · exact Or.inl (h1 ▸ List.mem_cons_self y ys)
      · rcases ih h1 with h2 | h2
        · exact Or.inl (List.mem_cons_of_mem y h2)
        · exact Or.inr h2

theorem mem_of_mem_eraseIdx_list {cs : List Contributor} {i : Nat}
    {x : Contributor} (h : x ∈ cs.eraseIdx i) : x ∈ cs := by
  induction cs generalizing i with
  | nil => simp [List.eraseIdx] at h
  | cons y ys ih =>
    cases i with
    | zero => exact List.mem_cons_of_mem y h
    | succ n =>
      rcases List.mem_cons.mp h with h1 | h1
      · exact h1 ▸ List.mem_cons_self y ys
      · exact List.mem_cons_of_mem y (ih h1)

theorem sum_map_set_eq {cs : List Contributor} {i : Nat} {c : Contributor}
    (hget : cs[i]? = some c) (c2 : Contributor) (f : Contributor → Nat) :
    ((cs.set i c2).map f).sum + f c = (cs.map f).sum + f c2 := by
  induction cs generalizing i with
  | nil => simp at hget
  | cons x xs ih =>
    cases i with
    | zero =>
      simp only [List.getElem?_cons_zero, Option.some.injEq] at hget
      subst hget
      simp only [List.set_cons_zero, List.map_cons, List.sum_cons]
      omega
    | succ n =>
      simp only [List.getElem?_cons_succ] at hget
      simp only [List.set_cons_succ, List.map_cons, List.sum_cons]
      have := ih hget
      omega

theorem sum_map_eraseIdx_eq {cs : List Contributor} {i : Nat} {c : Contributor}
    (hget : cs[i]? = some c) (f : Contributor → Nat) :
    ((cs.eraseIdx i).map f).sum + f c = (cs.map f).sum := by
  induction cs generalizing i with
  | nil => simp at hget
  | cons x xs ih =>
    cases i with
    | zero =>
      simp only [List.getElem?_cons_zero, Option.some.injEq] at hget
      subst hget
      simp only [List.eraseIdx_cons_zero, List.map_cons, List.sum_cons]
      omega
    | succ n =>
      simp only [List.getElem?_cons_succ] at hget
      simp only [List.eraseIdx_cons_succ, List.map_cons, List.sum_cons]
      have := ih hget
      omega

theorem sum_map_le_sum_map {cs : List Contributor} {f g : Contributor → Nat}
    (h : ∀ c ∈ cs, f c ≤ g c) : (cs.map f).sum ≤ (cs.map g).sum := by
  induction cs with
  | nil => simp
  | cons x xs ih =>
    simp only [List.map_cons, List.sum_cons]
    have h1 := h x (List.mem_cons_self x xs)
    have h2 := ih fun c hc => h c (List.mem_cons_of_mem x hc)
    omega

theorem sum_map_mul_left (cs : List Contributor) (k : Nat)
    (f : Contributor → Nat) :
    (cs.map fun c => k * f c).sum = k * (cs.map f).sum := by
  induction cs with
  | nil => simp
  | cons x xs ih =>
    simp only [List.map_cons, List.sum_cons, ih, Nat.mul_add]

theorem sum_map_mul_right (cs : List Contributor) (k : Nat)
    (f : Contributor → Nat) :
    (cs.map fun c => f c * k).sum = (cs.map f).sum * k := by
  induction cs with
  | nil => simp
  | cons x xs ih =>
    simp only [List.map_cons, List.sum_cons, ih, Nat.add_mul]

/-! ### The inductive invariant -/

/-- The inductive invariant of a pool configuration.  `solvent` is the
scaled solvency bound
`10^8·total + (100-pct)·rps·total + 10^6·pct·acc ≤ 10^8·balance + (100-pct)·10^6·Σdebt`:
the balance covers the stake, the users' undistributed share of the
reward-per-stake accumulator, and the operator's share of
`accumulated_reward`. -/
structure PoolInv (cfg : Config) : Prop where
  pct_le : cfg.pool.operator_reward_pct ≤ 100
  req_pos : 0 < cfg.pool.required_stake
  status_cases : cfg.pool.status = COLLECTING ∨ cfg.pool.status = READY ∨
    cfg.pool.status = ACTIVE
  thresh : cfg.pool.status = READY ∨ cfg.pool.status = ACTIVE →
    cfg.pool.required_stake ≤ cfg.pool.total_stake
  inactive_rps : cfg.pool.status ≠ ACTIVE → cfg.pool.reward_per_stake = 0
  inactive_acc : cfg.pool.status ≠ ACTIVE → cfg.pool.accumulated_reward = 0
  inactive_debt : cfg.pool.status ≠ ACTIVE → ∀ c ∈ cfg.contribs,
    c.reward_debt = 0
  stake_sum : sumStaked cfg.contribs = cfg.pool.total_stake
  debt_le : ∀ c ∈ cfg.contribs,
    1000000 * c.reward_debt ≤ c.staked_amount * cfg.pool.reward_per_stake
  solvent : 100000000 * cfg.pool.total_stake
      + (100 - cfg.pool.operator_reward_pct) *
          (cfg.pool.reward_per_stake * cfg.pool.total_stake)
      + 1000000 *
          (cfg.pool.operator_reward_pct * cfg.pool.accumulated_reward)
      ≤ 100000000 * cfg.pool.balance
        + (100 - cfg.pool.operator_reward_pct) *
            (1000000 * sumDebt cfg.contribs)

theorem debtSum_le {cfg : Config} (hInv : PoolInv cfg) :
    1000000 * sumDebt cfg.contribs ≤
      cfg.pool.reward_per_stake * cfg.pool.total_stake := by
  have h1 : ((cfg.contribs.map fun c => 1000000 * c.reward_debt)).sum ≤
      ((cfg.contribs.map fun c =>
        c.staked_amount * cfg.pool.reward_per_stake)).sum :=
    sum_map_le_sum_map hInv.debt_le
  rw [sum_map_mul_left cfg.contribs 1000000 Contributor.reward_debt] at h1
  rw [sum_map_mul_right cfg.contribs cfg.pool.reward_per_stake
    Contributor.staked_amount] at h1
  have h2 : sumStaked cfg.contribs = cfg.pool.total_stake := hInv.stake_sum
  unfold sumStaked at h2
  unfold sumDebt
  rw [h2] at h1
  rw [Nat.mul_comm cfg.pool.reward_per_stake cfg.pool.total_stake]
  exact h1

theorem balance_ge_total {cfg : Config} (hInv : PoolInv cfg) :
    cfg.pool.total_stake ≤ cfg.pool.balance := by
  have hd := debtSum_le hInv
  have hs := hInv.solvent
  have h2 : (100 - cfg.pool.operator_reward_pct) *
      (1000000 * sumDebt cfg.contribs) ≤
      (100 - cfg.pool.operator_reward_pct) *
      (cfg.pool.reward_per_stake * cfg.pool.total_stake) :=
    Nat.mul_le_mul_left _ hd
  set A := (100 - cfg.pool.operator_reward_pct) *
    (cfg.pool.reward_per_stake * cfg.pool.total_stake) with hA
  set B := (100 - cfg.pool.operator_reward_pct) *
    (1000000 * sumDebt cfg.contribs) with hB
  set C := 1000000 *
    (cfg.pool.operator_reward_pct * cfg.pool.accumulated_reward) with hC
  omega

theorem COLLECTING_eq : COLLECTING = 0 := rfl

theorem READY_eq : READY = 1 := rfl

theorem ACTIVE_eq : ACTIVE = 2 := rfl

theorem sumDebt_eq_zero {cs : List Contributor}
    (h : ∀ c ∈ cs, c.reward_debt = 0) : sumDebt cs = 0 := by
  unfold sumDebt
  induction cs with
  | nil => simp
  | cons x xs ih =>
    simp only [List.map_cons, List.sum_cons]
    rw [h x (List.mem_cons_self x xs),
      ih fun c hc => h c (List.mem_cons_of_mem x hc)]

theorem poolInv_init {rs pct : Nat} {ctx : TxContext} {pool : ValidatorPool}
    {cap : OperatorCap} {ctx2 : TxContext}
    (h : create_pool rs pct ctx = .ok (pool, cap, ctx2)) :
    PoolInv ⟨pool, cap, [], ctx2.fresh⟩ := by
  obtain ⟨h1, h2, h3⟩ := create_pool_ok h
  simp only [Prod.mk.injEq] at h3
  obtain ⟨hp, _, _⟩ := h3
  subst hp
  refine ⟨h1, h2, Or.inl rfl, ?_, fun _ => rfl, fun _ => rfl,
    fun _ c hc => absurd hc (List.not_mem_nil c), rfl,
    fun c hc => absurd hc (List.not_mem_nil c), ?_⟩
  · intro hc
    rcases hc with hc | hc <;>
      simp [COLLECTING_eq, READY_eq, ACTIVE_eq] at hc
  · simp [sumDebt]

theorem poolInv_step_activate {cfg cfg2 : Config} {sender : Nat}
    (hInv : PoolInv cfg)
    (h : applyOp (.opActivate sender) cfg = .ok cfg2) : PoolInv cfg2 := by
  simp only [applyOp] at h
  split at h
  · simp at h
  next pool2 heq =>
    injection h with h
    subst h
    obtain ⟨hst, _, hp2⟩ := activate_pool_ok heq
    subst hp2
    have hthresh := hInv.thresh (Or.inl hst)
    refine ⟨hInv.pct_le, hInv.req_pos, Or.inr (Or.inr rfl), fun _ => hthresh,
      ?_, ?_, ?_, hInv.stake_sum, hInv.debt_le, hInv.solvent⟩ <;>
    · intro hna
      exact absurd rfl hna

theorem poolInv_step_destroy {cfg cfg2 : Config} {i : Nat}
    (hInv : PoolInv cfg)
    (h : applyOp (.opDestroyContributor i) cfg = .ok cfg2) : PoolInv cfg2 := by
  simp only [applyOp] at h
  split at h
  · simp at h
  next c hget =>
    split at h
    · simp at h
    next u heq =>
      injection h with h
      subst h
      have hzero : c.staked_amount = 0 := by
        cases u
        exact destroy_empty_contributor_ok heq
      have hdebt0 : c.reward_debt = 0 := by
        have := hInv.debt_le c (mem_of_getElem_some hget)
        simp [hzero] at this
        omega
      have hsum := sum_map_eraseIdx_eq hget Contributor.staked_amount
      have hsumd := sum_map_eraseIdx_eq hget Contributor.reward_debt
      refine ⟨hInv.pct_le, hInv.req_pos, hInv.status_cases, hInv.thresh,
        hInv.inactive_rps, hInv.inactive_acc, ?_, ?_, ?_, ?_⟩
      · intro hna x hx
        exact hInv.inactive_debt hna x (mem_of_mem_eraseIdx_list hx)
      · have := hInv.stake_sum
        unfold sumStaked at this ⊢
        dsimp only at this ⊢
        simp only [hzero] at hsum
        omega
      · intro x hx
        exact hInv.debt_le x (mem_of_mem_eraseIdx_list hx)
      · have hs := hInv.solvent
        have hd : sumDebt (cfg.contribs.eraseIdx i) = sumDebt cfg.contribs := by
          unfold sumDebt
          simp only [hdebt0] at hsumd
          omega
        dsimp only at hs ⊢
        rw [hd]
        exact hs

theorem poolInv_step_stake {cfg cfg2 : Config} {a sender : Nat}
    (hInv : PoolInv cfg)
    (h : applyOp (.opStake a sender) cfg = .ok cfg2) : PoolInv cfg2 := by
  simp only [applyOp] at h
  split at h
  · simp at h
  next pool2 c2 ctx2 heq =>
    injection h with h
    subst h
    obtain ⟨hst, hpos, hb, ht, hm, hout⟩ := stake_ok heq
    simp only [Prod.mk.injEq] at hout
    obtain ⟨hp2, hc, _⟩ := hout
    subst hp2
    subst hc
    have hne : cfg.pool.status ≠ ACTIVE := by
      rcases hst with h1 | h1 <;> rw [h1] <;>
        simp [COLLECTING_eq, READY_eq, ACTIVE_eq]
    have hrps0 : cfg.pool.reward_per_stake = 0 := hInv.inactive_rps hne
    have hacc0 : cfg.pool.accumulated_reward = 0 := hInv.inactive_acc hne
    have hdebts := hInv.inactive_debt hne
    have hsd0 : sumDebt cfg.contribs = 0 := sumDebt_eq_zero hdebts
    constructor
    · exact hInv.pct_le
    · exact hInv.req_pos
    · dsimp only
      split
      · exact Or.inr (Or.inl rfl)
      · exact hInv.status_cases
    · dsimp only
      split
      next hcond => exact fun _ => hcond.1
      next hcond =>
        intro hy
        have := hInv.thresh hy
        omega
    · exact fun _ => hrps0
    · exact fun _ => hacc0
    · intro _ x hx
      rcases List.mem_append.mp hx with hx | hx
      · exact hdebts x hx
      · simp only [List.mem_singleton] at hx
        subst hx
        simp [hrps0]
    · have hss := hInv.stake_sum
      unfold sumStaked at hss ⊢
      dsimp only at hss ⊢
      rw [List.map_append, List.sum_append]
      simp only [List.map_cons, List.map_nil, List.sum_cons, List.sum_nil]
      omega
    · intro x hx
      dsimp only at hx ⊢
      rcases List.mem_append.mp hx with hx | hx
      · simp [hdebts x hx]
      · simp only [List.mem_singleton] at hx
        subst hx
        simp [hrps0]
    · have hs := hInv.solvent
      dsimp only at hs ⊢
      have hsd2 : sumDebt (cfg.contribs ++
          [{ id := cfg.nextId
             pool_id := cfg.pool.id
             owner := sender
             staked_amount := a
             reward_debt := cfg.pool.reward_per_stake * a / 1000000 }]) = 0 := by
        unfold sumDebt at hsd0 ⊢
        rw [List.map_append, List.sum_append]
        simp [hsd0, hrps0]
      rw [hsd2, hrps0, hacc0]
      rw [hrps0, hacc0, hsd0] at hs
      simp only [Nat.zero_mul, Nat.mul_zero, Nat.add_zero] at hs ⊢
      omega

theorem poolInv_step_withdraw {cfg cfg2 : Config} {i a sender : Nat}
    (hInv : PoolInv cfg)
    (h : applyOp (.opWithdrawStake i a sender) cfg = .ok cfg2) :
    PoolInv cfg2 := by
  simp only [applyOp] at h
  split at h
  · simp at h
  next c hget =>
    split at h
    · simp at h
    next pool2 c2 v heq =>
      injection h with h
      subst h
      obtain ⟨hst, hown, hpos, hle, hta, hba, hout⟩ := withdraw_stake_ok heq
      simp only [Prod.mk.injEq] at hout
      obtain ⟨hp2, hc, _⟩ := hout
      subst hp2
      subst hc
      have hmem := mem_of_getElem_some hget
      have hne : cfg.pool.status ≠ ACTIVE := by
        rcases hst with h1 | h1 <;> rw [h1] <;>
          simp [COLLECTING_eq, READY_eq, ACTIVE_eq]
      have hrps0 : cfg.pool.reward_per_stake = 0 := hInv.inactive_rps hne
      have hacc0 : cfg.pool.accumulated_reward = 0 := hInv.inactive_acc hne
      have hdebts := hInv.inactive_debt hne
      have hsd0 : sumDebt cfg.contribs = 0 := sumDebt_eq_zero hdebts
      have hsset := sum_map_set_eq hget
        { c with staked_amount := c.staked_amount - a }
        Contributor.staked_amount
      have hdset := sum_map_set_eq hget
        { c with staked_amount := c.staked_amount - a }
        Contributor.reward_debt
      constructor
      · exact hInv.pct_le
      · exact hInv.req_pos
      · dsimp only
        split
        · exact Or.inl rfl
        · exact hInv.status_cases
      · dsimp only
        split
        next hcond =>
          intro hy
          rcases hy with hy | hy <;>
            simp [COLLECTING_eq, READY_eq, ACTIVE_eq] at hy
        next hcond =>
          intro hy
          rcases hy with hy | hy
          · have h2 : cfg.pool.status = READY := by
              rcases hst with h1 | h1
              · rw [h1] at hy ⊢
                simp [COLLECTING_eq, READY_eq] at hy
              · exact h1
            rw [h2] at hcond
            simp only [and_true] at hcond
            omega
          · rcases hst with h1 | h1 <;> rw [h1] at hy <;>
              simp [COLLECTING_eq, READY_eq, ACTIVE_eq] at hy
      · exact fun _ => hrps0
      · exact fun _ => hacc0
      · intro _ x hx
        rcases mem_set_cases hx with hx | hx
        · exact hdebts x hx
        · subst hx
          exact hdebts c hmem
      · have hss := hInv.stake_sum
        unfold sumStaked at hss ⊢
        dsimp only at hss hsset ⊢
        omega
      · intro x hx
        dsimp only at hx ⊢
        rcases mem_set_cases hx with hx | hx
        · simp [hdebts x hx]
        · subst hx
          simp [hdebts c hmem]
      · have hs := hInv.solvent
        dsimp only at hs ⊢
        have hsd2 : sumDebt (cfg.contribs.set i
            { c with staked_amount := c.staked_amount - a }) = 0 := by
          have hdc : c.reward_debt = 0 := hdebts c hmem
          unfold sumDebt at hsd0 ⊢
          dsimp only at hdset
          omega
        rw [hsd2, hrps0, hacc0]
        rw [hrps0, hacc0, hsd0] at hs
        simp only [Nat.zero_mul, Nat.mul_zero, Nat.add_zero] at hs ⊢
        omega

theorem set_getElem_same {cs : List Contributor} {i : Nat} {c : Contributor}
    (h : cs[i]? = some c) : cs.set i c = cs := by
  induction cs generalizing i with
  | nil => simp at h
  | cons x xs ih =>
    cases i with
    | zero =>
      simp only [List.getElem?_cons_zero, Option.some.injEq] at h
      rw [List.set_cons_zero, h]
    | succ n =>
      simp only [List.getElem?_cons_succ] at h
      rw [List.set_cons_succ, ih h]

theorem lin_add_le {L A X C Y Bl B Z R : Nat}
    (hold : L + A + C ≤ Bl + B) (b1 : X ≤ Z) (key : Z + Y = R) :
    L + (A + X) + (C + Y) ≤ Bl + R + B := by omega

theorem lin_sub_le {L A C U V B : Nat}
    (hold : L + A + C ≤ U + V + B) (hcu : U ≤ C) : L + A + 0 ≤ V + B := by
  omega

theorem lin_claim {L A C B B2 W P U V : Nat}
    (hold : L + A + C ≤ U + V + B)
    (h1 : B2 + W = B + (W + P)) (h3 : U ≤ P) : L + A + C ≤ V + B2 := by
  omega

theorem solvent_record_arith {T rps acc bal D pct r : Nat}
    (hpct : pct ≤ 100)
    (hold : 100000000 * T + (100 - pct) * (rps * T) + 1000000 * (pct * acc)
      ≤ 100000000 * bal + (100 - pct) * (1000000 * D)) :
    100000000 * T + (100 - pct) * ((rps + r * 1000000 / T) * T)
        + 1000000 * (pct * (acc + r))
      ≤ 100000000 * (bal + r) + (100 - pct) * (1000000 * D) := by
  obtain ⟨e, he⟩ := Nat.le.dest hpct
  have hq : 100 - pct = e := by omega
  rw [hq] at hold ⊢
  have hdT : (r * 1000000 / T) * T ≤ r * 1000000 := Nat.div_mul_le_self _ _
  have b1 : e * ((r * 1000000 / T) * T) ≤ e * (r * 1000000) :=
    Nat.mul_le_mul_left _ hdT
  have e1 : e * ((rps + r * 1000000 / T) * T)
      = e * (rps * T) + e * ((r * 1000000 / T) * T) := by ring
  have e2 : 1000000 * (pct * (acc + r))
      = 1000000 * (pct * acc) + 1000000 * (pct * r) := by ring
  have e3 : 100000000 * (bal + r) = 100000000 * bal + 100000000 * r := by ring
  have key : e * (r * 1000000) + 1000000 * (pct * r) = 100000000 * r := by
    have r1 : (pct + e) * (1000000 * r)
        = e * (r * 1000000) + 1000000 * (pct * r) := by ring
    rw [he] at r1
    rw [← r1]
    ring
  rw [e1, e2, e3]
  exact lin_add_le hold b1 key

theorem solvent_claimop_arith {T rps acc bal D pct : Nat}
    (hold : 100000000 * T + (100 - pct) * (rps * T) + 1000000 * (pct * acc)
      ≤ 100000000 * bal + (100 - pct) * (1000000 * D))
    (hsplit : acc * pct / 100 ≤ bal) :
    100000000 * T + (100 - pct) * (rps * T) + 1000000 * (pct * 0)
      ≤ 100000000 * (bal - acc * pct / 100) + (100 - pct) * (1000000 * D) := by
  obtain ⟨v, hv⟩ := Nat.le.dest hsplit
  have hbv : bal - acc * pct / 100 = v := by omega
  rw [hbv]
  have hu100 : (acc * pct / 100) * 100 ≤ acc * pct := Nat.div_mul_le_self _ _
  have e3 : 1000000 * ((acc * pct / 100) * 100) ≤ 1000000 * (acc * pct) :=
    Nat.mul_le_mul_left _ hu100
  have e4 : 1000000 * ((acc * pct / 100) * 100)
      = 100000000 * (acc * pct / 100) := by ring
  have e5 : 1000000 * (acc * pct) = 1000000 * (pct * acc) := by ring
  rw [e4, e5] at e3
  have e6 : 100000000 * bal
      = 100000000 * (acc * pct / 100) + 100000000 * v := by
    rw [← hv]
    ring
  rw [e6] at hold
  have e7 : 1000000 * (pct * 0) = 0 := by ring
  rw [e7]
  exact lin_sub_le hold e3

theorem solvent_claim_arith {T rps acc bal D D2 pct d dNew : Nat}
    (hpct : pct ≤ 100)
    (hold : 100000000 * T + (100 - pct) * (rps * T) + 1000000 * (pct * acc)
      ≤ 100000000 * bal + (100 - pct) * (1000000 * D))
    (hdd : d ≤ dNew)
    (hsplit : (dNew - d) * (100 - pct) / 100 ≤ bal)
    (hD2 : D2 + d = D + dNew) :
    100000000 * T + (100 - pct) * (rps * T) + 1000000 * (pct * acc)
      ≤ 100000000 * (bal - (dNew - d) * (100 - pct) / 100)
        + (100 - pct) * (1000000 * D2) := by
  obtain ⟨e, he⟩ := Nat.le.dest hpct
  have hq : 100 - pct = e := by omega
  obtain ⟨P0, hP0⟩ := Nat.le.dest hdd
  have hPd : dNew - d = P0 := by omega
  rw [hq, hPd] at hsplit ⊢
  rw [hq] at hold
  obtain ⟨v, hv⟩ := Nat.le.dest hsplit
  have hbv : bal - P0 * e / 100 = v := by omega
  rw [hbv]
  have hu100 : (P0 * e / 100) * 100 ≤ P0 * e := Nat.div_mul_le_self _ _
  have e3 : 1000000 * ((P0 * e / 100) * 100) ≤ 1000000 * (P0 * e) :=
    Nat.mul_le_mul_left _ hu100
  have e4 : 1000000 * ((P0 * e / 100) * 100)
      = 100000000 * (P0 * e / 100) := by ring
  have e5 : 1000000 * (P0 * e) = e * (1000000 * P0) := by ring
  rw [e4, e5] at e3
  have e6 : 100000000 * bal
      = 100000000 * (P0 * e / 100) + 100000000 * v := by
    rw [← hv]
    ring
  rw [e6] at hold
  have e1 : e * (1000000 * D2) + e * (1000000 * d)
      = e * (1000000 * D) + (e * (1000000 * d) + e * (1000000 * P0)) := by
    have r1 : e * (1000000 * (D2 + d))
        = e * (1000000 * D2) + e * (1000000 * d) := by ring
    have r2 : e * (1000000 * (D + dNew))
        = e * (1000000 * D) + e * (1000000 * dNew) := by ring
    have r3 : e * (1000000 * dNew)
        = e * (1000000 * d) + e * (1000000 * P0) := by
      rw [← hP0]
      ring
    rw [← r3, ← r2, ← r1, hD2]
  exact lin_claim hold e1 e3

theorem poolInv_step_record {cfg cfg2 : Config} {r : Nat}
    (hInv : PoolInv cfg)
    (h : applyOp (.opRecordReward r) cfg = .ok cfg2) : PoolInv cfg2 := by
  simp only [applyOp] at h
  split at h
  · simp at h
  next pool2 heq =>
    injection h with h
    subst h
    obtain ⟨hst, hpos, hb, hacc, hcase⟩ := record_reward_ok heq
    have hT : 0 < cfg.pool.total_stake := by
      have h1 := hInv.thresh (Or.inr hst)
      have h2 := hInv.req_pos
      omega
    rcases hcase with ⟨_, _, _, hp2⟩ | ⟨hT0, _⟩
    · subst hp2
      constructor
      · exact hInv.pct_le
      · exact hInv.req_pos
      · exact Or.inr (Or.inr hst)
      · exact hInv.thresh
      · intro hna
        exact absurd hst hna
      · intro hna
        exact absurd hst hna
      · intro hna
        exact absurd hst hna
      · exact hInv.stake_sum
      · intro x hx
        dsimp only
        have h1 := hInv.debt_le x hx
        have h2 : x.staked_amount * cfg.pool.reward_per_stake ≤
            x.staked_amount *
              (cfg.pool.reward_per_stake +
                r * 1000000 / cfg.pool.total_stake) :=
          Nat.mul_le_mul_left _ (Nat.le_add_right _ _)
        omega
      · have hs := hInv.solvent
        dsimp only at hs ⊢
        exact solvent_record_arith hInv.pct_le hs
    · omega

theorem poolInv_step_claimop {cfg cfg2 : Config} {sender : Nat}
    (hInv : PoolInv cfg)
    (h : applyOp (.opClaimOperatorReward sender) cfg = .ok cfg2) :
    PoolInv cfg2 := by
  simp only [applyOp] at h
  split at h
  · simp at h
  next pool2 v heq =>
    injection h with h
    subst h
    obtain ⟨hst, hop, hm, hcase⟩ := claim_operator_reward_ok heq
    rcases hcase with ⟨_, hout⟩ | ⟨hposu, hsplit, hout⟩ <;>
      simp only [Prod.mk.injEq] at hout <;> obtain ⟨hp2, _⟩ := hout <;> subst hp2
    · exact hInv
    · constructor
      · exact hInv.pct_le
      · exact hInv.req_pos
      · exact Or.inr (Or.inr hst)
      · exact hInv.thresh
      · intro hna
        exact absurd hst hna
      · intro hna
        exact absurd hst hna
      · intro hna
        exact absurd hst hna
      · exact hInv.stake_sum
      · exact hInv.debt_le
      · have hs := hInv.solvent
        dsimp only at hs ⊢
        exact solvent_claimop_arith hs hsplit

theorem poolInv_step_claim {cfg cfg2 : Config} {i sender : Nat}
    (hInv : PoolInv cfg)
    (h : applyOp (.opClaimReward i sender) cfg = .ok cfg2) : PoolInv cfg2 := by
  simp only [applyOp] at h
  split at h
  · simp at h
  next c hget =>
    split at h
    · simp at h
    next pool2 c2 v heq =>
      injection h with h
      subst h
      have hmem := mem_of_getElem_some hget
      obtain ⟨hst, hown, hm, hdd, hcase⟩ := claim_reward_ok heq
      rcases hcase with ⟨_, hout⟩ | ⟨hposP, hpct, hm2, hsplit, hout⟩ <;>
        simp only [Prod.mk.injEq] at hout <;>
        obtain ⟨hp2, hc2, _⟩ := hout <;> subst hp2 <;> subst hc2
      · rw [set_getElem_same hget]
        exact hInv
      · have hdset := sum_map_set_eq hget
          { c with reward_debt :=
              c.staked_amount * cfg.pool.reward_per_stake / 1000000 }
          Contributor.reward_debt
        have hsset := sum_map_set_eq hget
          { c with reward_debt :=
              c.staked_amount * cfg.pool.reward_per_stake / 1000000 }
          Contributor.staked_amount
        constructor
        · exact hInv.pct_le
        · exact hInv.req_pos
        · exact Or.inr (Or.inr hst)
        · exact hInv.thresh
        · intro hna
          exact absurd hst hna
        · intro hna
          exact absurd hst hna
        · intro hna
          exact absurd hst hna
        · have hss := hInv.stake_sum
          unfold sumStaked at hss ⊢
          dsimp only at hsset ⊢
          omega
        · intro x hx
          dsimp only at hx ⊢
          rcases mem_set_cases hx with hx | hx
          · exact hInv.debt_le x hx
          · subst hx
            dsimp only
            generalize c.staked_amount * cfg.pool.reward_per_stake = X
            omega
        · have hs := hInv.solvent
          dsimp only at hs ⊢
          have hD2 : sumDebt (cfg.contribs.set i
                { c with reward_debt :=
                    c.staked_amount * cfg.pool.reward_per_stake / 1000000 })
              + c.reward_debt
              = sumDebt cfg.contribs
                + c.staked_amount * cfg.pool.reward_per_stake / 1000000 := by
            unfold sumDebt
            exact hdset
          exact solvent_claim_arith hInv.pct_le hs hdd hsplit hD2

theorem poolInv_applyOp {op : Op} {cfg cfg2 : Config} (hInv : PoolInv cfg)
    (h : applyOp op cfg = .ok cfg2) : PoolInv cfg2 := by
  cases op with
  | opStake a sender => exact poolInv_step_stake hInv h
  | opActivate sender => exact poolInv_step_activate hInv h
  | opRecordReward r => exact poolInv_step_record hInv h
  | opClaimReward i sender => exact poolInv_step_claim hInv h
  | opClaimOperatorReward sender => exact poolInv_step_claimop hInv h
  | opWithdrawStake i a sender => exact poolInv_step_withdraw hInv h
  | opDestroyContributor i => exact poolInv_step_destroy hInv h

theorem poolInv_of_reachable {cfg : Config} (h : Reachable cfg) :
    PoolInv cfg := by
  induction h with
  | init rs pct ctx pool cap ctx2 h => exact poolInv_init h
  | step op cfg cfg2 h1 h2 ih => exact poolInv_applyOp ih h2

/-! ### Named properties used by the claim theorems -/

/-- Every payout-producing call (`claim_reward`, `claim_operator_reward`,
`withdraw_stake`) that succeeds on this configuration pays at most the
current pool balance, and deducts exactly the payout from it. -/
def PayoutsWithinBalance (cfg : Config) : Prop :=
  (∀ (c : Contributor) (ctx : TxContext) (out : ValidatorPool × Contributor × Nat),
     claim_reward cfg.pool c ctx = .ok out →
       out.2.2 ≤ cfg.pool.balance ∧ out.1.balance = cfg.pool.balance - out.2.2) ∧
  (∀ (ctx : TxContext) (out : ValidatorPool × Nat),
     claim_operator_reward cfg.pool cfg.cap ctx = .ok out →
       out.2 ≤ cfg.pool.balance ∧ out.1.balance = cfg.pool.balance - out.2) ∧
  (∀ (c : Contributor) (a : Nat) (ctx : TxContext)
     (out : ValidatorPool × Contributor × Nat),
     withdraw_stake cfg.pool c a ctx = .ok out →
       out.2.2 ≤ cfg.pool.balance ∧ out.1.balance = cfg.pool.balance - out.2.2)

/-- `destroy_empty_contributor` only ever succeeds on a record whose
`staked_amount` is zero. -/
def DestroyRequiresZero : Prop :=
  ∀ c : Contributor, destroy_empty_contributor c = .ok () → c.staked_amount = 0

/-! ### Concrete example configurations (used by witnesses) -/

/-- The pool produced by `create_pool 1000 10` from sender 7. -/
def examplePool : ValidatorPool :=
  { id := 0, required_stake := 1000, total_stake := 0, operator := 7,
    operator_reward_pct := 10, status := COLLECTING, accumulated_reward := 0,
    reward_per_stake := 0, balance := 0 }

/-- The capability created alongside `examplePool`. -/
def exampleCap : OperatorCap := { id := 1, pool_id := 0 }

/-- The configuration right after `create_pool 1000 10`. -/
def exampleCfg : Config :=
  { pool := examplePool, cap := exampleCap, contribs := [], nextId := 2 }

theorem reachable_exampleCfg : Reachable exampleCfg :=
  Reachable.init 1000 10 ⟨7, 0⟩ examplePool exampleCap ⟨7, 2⟩ (by decide)

/-- A newly created pool with a large threshold of 2000000. -/
def exampleCfgA0 : Config :=
  { pool := { id := 0, required_stake := 2000000, total_stake := 0,
              operator := 7, operator_reward_pct := 10, status := COLLECTING,
              accumulated_reward := 0, reward_per_stake := 0, balance := 0 },
    cap := exampleCap, contribs := [], nextId := 2 }

/-- The contributor record minted by staking 2000000 into `exampleCfgA0`. -/
def exampleContributor : Contributor :=
  { id := 2, pool_id := 0, owner := 5, staked_amount := 2000000,
    reward_debt := 0 }

/-- `exampleCfgA0` after a stake of 2000000 (now `READY`). -/
def exampleCfgA1 : Config :=
  { pool := { id := 0, required_stake := 2000000, total_stake := 2000000,
              operator := 7, operator_reward_pct := 10, status := READY,
              accumulated_reward := 0, reward_per_stake := 0,
              balance := 2000000 },
    cap := exampleCap, contribs := [exampleContributor], nextId := 3 }

/-- `exampleCfgA1` after the operator activates the pool. -/
def exampleCfgActive : Config :=
  { pool := { id := 0, required_stake := 2000000, total_stake := 2000000,
              operator := 7, operator_reward_pct := 10, status := ACTIVE,
              accumulated_reward := 0, reward_per_stake := 0,
              balance := 2000000 },
    cap := exampleCap, contribs := [exampleContributor], nextId := 3 }

theorem reachable_exampleCfgA0 : Reachable exampleCfgA0 :=
  Reachable.init 2000000 10 ⟨7, 0⟩ exampleCfgA0.pool exampleCap ⟨7, 2⟩
    (by decide)

theorem reachable_exampleCfgA1 : Reachable exampleCfgA1 :=
  Reachable.step (.opStake 2000000 5) exampleCfgA0 exampleCfgA1
    reachable_exampleCfgA0 (by decide)

theorem reachable_exampleCfgActive : Reachable exampleCfgActive :=
  Reachable.step (.opActivate 7) exampleCfgA1 exampleCfgActive
    reachable_exampleCfgA1 (by decide)

/-! ### Claim theorems -/

/-- Claim C1: in every configuration reachable from `create_pool` by any
sequence of the seven operations, `pool.balance ≥ pool.total_stake`, and no
payout-producing operation (`claim_reward`, `claim_operator_reward`,
`withdraw_stake`) ever deducts from `pool.balance` more than it currently
holds — every successful payout is at most the balance and is exactly the
amount split off it. -/
theorem c1_solvency_invariant (cfg : Config) (h : Reachable cfg) :
    cfg.pool.total_stake ≤ cfg.pool.balance ∧ PayoutsWithinBalance cfg := by
  have hInv := poolInv_of_reachable h
  refine ⟨balance_ge_total hInv, ?_, ?_, ?_⟩
  · intro c ctx out hc
    obtain ⟨_, _, _, _, hcase⟩ := claim_reward_ok hc
    rcases hcase with ⟨_, hout⟩ | ⟨_, _, _, hsplit, hout⟩ <;> subst hout
    · exact ⟨Nat.zero_le _, rfl⟩
    · exact ⟨hsplit, rfl⟩
  · intro ctx out hc
    obtain ⟨_, _, _, hcase⟩ := claim_operator_reward_ok hc
    rcases hcase with ⟨_, hout⟩ | ⟨_, hsplit, hout⟩ <;> subst hout
    · exact ⟨Nat.zero_le _, rfl⟩
    · exact ⟨hsplit, rfl⟩
  · intro c a ctx out hc
    obtain ⟨_, _, _, _, _, hba, hout⟩ := withdraw_stake_ok hc
    subst hout
    exact ⟨hba, rfl⟩

theorem c1_solvency_invariant_witness :
    exampleCfg.pool.total_stake ≤ exampleCfg.pool.balance ∧
    PayoutsWithinBalance exampleCfg :=
  c1_solvency_invariant exampleCfg reachable_exampleCfg

/-- Claim C2: in every reachable configuration `pool.total_stake` equals the
sum of `staked_amount` over the live contributor records of that pool, and
`destroy_empty_contributor` succeeds only on records with
`staked_amount = 0` (so destruction preserves the equality). -/
theorem c2_total_stake_is_sum (cfg : Config) (h : Reachable cfg) :
    sumStaked cfg.contribs = cfg.pool.total_stake ∧ DestroyRequiresZero := by
  have hInv := poolInv_of_reachable h
  exact ⟨hInv.stake_sum, fun c hc => destroy_empty_contributor_ok hc⟩

theorem c2_total_stake_is_sum_witness :
    sumStaked exampleCfgA1.contribs = exampleCfgA1.pool.total_stake ∧
    DestroyRequiresZero :=
  c2_total_stake_is_sum exampleCfgA1 reachable_exampleCfgA1

/-- Outside `ACTIVE`, both the reward accumulator and every live record's
reward debt are zero. -/
def InactiveRewardsZero (cfg : Config) : Prop :=
  cfg.pool.status ≠ ACTIVE →
    cfg.pool.reward_per_stake = 0 ∧ ∀ c ∈ cfg.contribs, c.reward_debt = 0

/-- A successful `stake` on this pool mints a record with `reward_debt = 0`,
and the `reward_per_stake * amount` multiplication in it cannot abort. -/
def StakeMintsZeroDebt (cfg : Config) : Prop :=
  ∀ (a : Nat) (ctx : TxContext) (out : ValidatorPool × Contributor × TxContext),
    stake cfg.pool a ctx = .ok out →
      out.2.1.reward_debt = 0 ∧ mul64 cfg.pool.reward_per_stake a = .ok 0

/-- A successful `withdraw_stake` on this pool only ever acts on records
whose `reward_debt` is zero. -/
def WithdrawActsOnZeroDebt (cfg : Config) : Prop :=
  ∀ c ∈ cfg.contribs, ∀ (a : Nat) (ctx : TxContext)
    (out : ValidatorPool × Contributor × Nat),
    withdraw_stake cfg.pool c a ctx = .ok out → c.reward_debt = 0

/-- Claim C9: in every reachable configuration, a non-`ACTIVE` status forces
`reward_per_stake = 0` and every live record's `reward_debt = 0`; hence
`stake` always mints a record with `reward_debt = 0` (and the
`reward_per_stake * amount` product cannot overflow at creation), and
`withdraw_stake` only ever acts on records whose `reward_debt` is zero, so
the stale-debt-after-withdrawal scenario never arises with a nonzero debt. -/
theorem c9_inactive_debts_zero (cfg : Config) (h : Reachable cfg) :
    InactiveRewardsZero cfg ∧ StakeMintsZeroDebt cfg ∧
    WithdrawActsOnZeroDebt cfg := by
  have hInv := poolInv_of_reachable h
  refine ⟨fun hna => ⟨hInv.inactive_rps hna, hInv.inactive_debt hna⟩, ?_, ?_⟩
  · intro a ctx out hs
    obtain ⟨hst, _, _, _, _, hout⟩ := stake_ok hs
    have hna : cfg.pool.status ≠ ACTIVE := by
      rcases hst with h1 | h1 <;> rw [h1] <;>
        simp [COLLECTING_eq, READY_eq, ACTIVE_eq]
    have hrps0 := hInv.inactive_rps hna
    subst hout
    constructor
    · dsimp only
      rw [hrps0]
      simp
    · rw [hrps0]
      have : (0 : Nat) * a = 0 := by simp
      rw [mul64, this]
      simp [U64_SIZE]
  · intro c hc a ctx out hw
    obtain ⟨hst, _, _, _, _, _, _⟩ := withdraw_stake_ok hw
    have hna : cfg.pool.status ≠ ACTIVE := by
      rcases hst with h1 | h1 <;> rw [h1] <;>
        simp [COLLECTING_eq, READY_eq, ACTIVE_eq]
    exact hInv.inactive_debt hna c hc

theorem c9_inactive_debts_zero_witness :
    InactiveRewardsZero exampleCfgA1 ∧ StakeMintsZeroDebt exampleCfgA1 ∧
    WithdrawActsOnZeroDebt exampleCfgA1 :=
  c9_inactive_debts_zero exampleCfgA1 reachable_exampleCfgA1

/-- Once `ACTIVE`, no successful operation changes `total_stake` or leaves
the `ACTIVE` status. -/
def ActiveStakeFrozen (cfg : Config) : Prop :=
  ∀ (op : Op) (cfg2 : Config), applyOp op cfg = .ok cfg2 →
    cfg2.pool.total_stake = cfg.pool.total_stake ∧ cfg2.pool.status = ACTIVE

/-- Every successful `record_reward` on this pool runs with a positive
`total_stake` (the `total_stake = 0` branch is dead) and never decreases
`reward_per_stake`. -/
def RecordRewardTotalPos (cfg : Config) : Prop :=
  ∀ (r : Nat) (pool2 : ValidatorPool), record_reward cfg.pool r = .ok pool2 →
    0 < cfg.pool.total_stake ∧
    cfg.pool.reward_per_stake ≤ pool2.reward_per_stake

/-- The unsigned subtraction
`staked_amount * reward_per_stake / 1000000 - reward_debt` used by
`claim_reward` and `calculate_pending_reward` never underflows on a live
record of this configuration. -/
def ClaimSubNoUnderflow (cfg : Config) : Prop :=
  ∀ c ∈ cfg.contribs,
    sub64 (c.staked_amount * cfg.pool.reward_per_stake / 1000000)
        c.reward_debt
      = .ok (c.staked_amount * cfg.pool.reward_per_stake / 1000000
          - c.reward_debt)

/-- Claim C10 (amended): in every reachable `ACTIVE` configuration,
`total_stake ≥ required_stake > 0` and no operation changes `total_stake`
again; hence the `total_stake = 0` branch of `record_reward` is unreachable
and every successful `record_reward` leaves `reward_per_stake` unchanged or
larger (the scaled increment may truncate to zero), and the unsigned
subtraction in `claim_reward`/`calculate_pending_reward` never underflows. -/
theorem c10_active_stake_frozen (cfg : Config) (h : Reachable cfg)
    (hact : cfg.pool.status = ACTIVE) :
    (0 < cfg.pool.required_stake ∧
      cfg.pool.required_stake ≤ cfg.pool.total_stake) ∧
    ActiveStakeFrozen cfg ∧ RecordRewardTotalPos cfg ∧
    ClaimSubNoUnderflow cfg := by
  have hInv := poolInv_of_reachable h
  have hT : 0 < cfg.pool.total_stake := by
    have h1 := hInv.thresh (Or.inr hact)
    have h2 := hInv.req_pos
    omega
  refine ⟨⟨hInv.req_pos, hInv.thresh (Or.inr hact)⟩, ?_, ?_, ?_⟩
  · intro op cfg2 hstep
    cases op with
    | opStake a sender =>
      simp only [applyOp] at hstep
      have hfail : stake cfg.pool a ⟨sender, cfg.nextId⟩ =
          .error (.abort E_INVALID_STATE) := by
        unfold stake
        rw [hact]
        rw [if_pos (by simp [ACTIVE_eq, COLLECTING_eq, READY_eq])]
      rw [hfail] at hstep
      simp at hstep
    | opActivate sender =>
      simp only [applyOp] at hstep
      have hfail : activate_pool cfg.pool cfg.cap ⟨sender, cfg.nextId⟩ =
          .error (.abort E_INVALID_STATE) := by
        unfold activate_pool
        rw [hact]
        rw [if_pos (by simp [ACTIVE_eq, READY_eq])]
      rw [hfail] at hstep
      simp at hstep
    | opRecordReward r =>
      simp only [applyOp] at hstep
      split at hstep
      · simp at hstep
      next pool2 heq =>
        injection hstep with hstep
        subst hstep
        obtain ⟨_, _, _, _, hcase⟩ := record_reward_ok heq
        rcases hcase with ⟨_, _, _, hp2⟩ | ⟨_, hp2⟩ <;> subst hp2 <;>
          exact ⟨rfl, hact⟩
    | opClaimReward i sender =>
      simp only [applyOp] at hstep
      split at hstep
      · simp at hstep
      next c hget =>
        split at hstep
        · simp at hstep
        next pool2 c2 v heq =>
          injection hstep with hstep
          subst hstep
          obtain ⟨_, _, _, _, hcase⟩ := claim_reward_ok heq
          rcases hcase with ⟨_, hout⟩ | ⟨_, _, _, _, hout⟩ <;>
            simp only [Prod.mk.injEq] at hout <;>
            obtain ⟨hp2, _, _⟩ := hout <;> subst hp2 <;> exact ⟨rfl, hact⟩
    | opClaimOperatorReward sender =>
      simp only [applyOp] at hstep
      split at hstep
      · simp at hstep
      next pool2 v heq =>
        injection hstep with hstep
        subst hstep
        obtain ⟨_, _, _, hcase⟩ := claim_operator_reward_ok heq
        rcases hcase with ⟨_, hout⟩ | ⟨_, _, hout⟩ <;>
          simp only [Prod.mk.injEq] at hout <;>
          obtain ⟨hp2, _⟩ := hout <;> subst hp2 <;> exact ⟨rfl, hact⟩
    | opWithdrawStake i a sender =>
      simp only [applyOp] at hstep
      split at hstep
      · simp at hstep
      next c hget =>
        have hfail : withdraw_stake cfg.pool c a ⟨sender, cfg.nextId⟩ =
            .error (.abort E_WITHDRAWAL_NOT_ALLOWED) := by
          unfold withdraw_stake
          rw [hact]
          rw [if_pos (by simp [ACTIVE_eq, COLLECTING_eq, READY_eq])]
        rw [hfail] at hstep
        simp at hstep
    | opDestroyContributor i =>
      simp only [applyOp] at hstep
      split at hstep
      · simp at hstep
      next c hget =>
        split at hstep
        · simp at hstep
        next u heq =>
          injection hstep with hstep
          subst hstep
          exact ⟨rfl, hact⟩
  · intro r pool2 hr
    obtain ⟨_, _, _, _, hcase⟩ := record_reward_ok hr
    rcases hcase with ⟨_, _, _, hp2⟩ | ⟨hT0, _⟩
    · subst hp2
      exact ⟨hT, Nat.le_add_right _ _⟩
    · omega
  · intro c hc
    have hd := hInv.debt_le c hc
    have hdd : c.reward_debt ≤
        c.staked_amount * cfg.pool.reward_per_stake / 1000000 := by
      generalize hX : c.staked_amount * cfg.pool.reward_per_stake = X at hd ⊢
      omega
    exact sub64_eq_ok hdd

theorem c10_active_stake_frozen_witness :
    ((0 < exampleCfgActive.pool.required_stake ∧
      exampleCfgActive.pool.required_stake ≤
        exampleCfgActive.pool.total_stake) ∧
    ActiveStakeFrozen exampleCfgActive ∧
    RecordRewardTotalPos exampleCfgActive ∧
    ClaimSubNoUnderflow exampleCfgActive) :=
  c10_active_stake_frozen exampleCfgActive reachable_exampleCfgActive
    (by decide)

/-- Claim C10 counterexample: `exampleCfgActive` is reachable and `ACTIVE`,
and `record_reward` of 1 succeeds on it, yet `reward_per_stake` does not
increase — the scaled increment `1 * 1000000 / 2000000` truncates to zero.
This refutes the claim's parenthetical that every successful
`record_reward` increases `reward_per_stake`. -/
theorem c10_counterexample :
    Reachable exampleCfgActive ∧
    exampleCfgActive.pool.status = ACTIVE ∧
    record_reward exampleCfgActive.pool 1 =
      .ok { exampleCfgActive.pool with
              balance := 2000001, accumulated_reward := 1 } ∧
    ValidatorPool.reward_per_stake
        { exampleCfgActive.pool with
            balance := 2000001, accumulated_reward := 1 }
      = exampleCfgActive.pool.reward_per_stake :=
  ⟨reachable_exampleCfgActive, by decide, by decide, by decide⟩

/-- Claim C4: a successful `stake` from `COLLECTING` ends `READY` exactly
when `total_stake + amount ≥ required_stake`, stays `COLLECTING` when the
sum is still below the threshold, and a successful `stake` from `READY`
stays `READY`. -/
theorem c4_stake_status (pool : ValidatorPool) (a : Nat) (ctx : TxContext)
    (pool2 : ValidatorPool) (c : Contributor) (ctx2 : TxContext)
    (h : stake pool a ctx = .ok (pool2, c, ctx2)) :
    (pool.status = COLLECTING →
      ((pool.required_stake ≤ pool.total_stake + a → pool2.status = READY) ∧
       (pool.total_stake + a < pool.required_stake →
         pool2.status = COLLECTING))) ∧
    (pool.status = READY → pool2.status = READY) := by
  obtain ⟨hst, _, _, _, _, hout⟩ := stake_ok h
  simp only [Prod.mk.injEq] at hout
  obtain ⟨hp2, _, _⟩ := hout
  subst hp2
  dsimp only
  constructor
  · intro hC
    constructor
    · intro hge
      rw [if_pos ⟨hge, hC⟩]
    · intro hlt
      rw [if_neg fun hcond => absurd hcond.1 (by omega)]
      exact hC
  · intro hR
    rw [if_neg fun hcond => by
      rw [hR] at hcond
      exact absurd hcond.2 (by simp [READY_eq, COLLECTING_eq])]
    exact hR

theorem c4_stake_status_witness :
    ((exampleCfgA0.pool.status = COLLECTING →
      ((exampleCfgA0.pool.required_stake ≤
          exampleCfgA0.pool.total_stake + 2000000 →
          exampleCfgA1.pool.status = READY) ∧
       (exampleCfgA0.pool.total_stake + 2000000 <
          exampleCfgA0.pool.required_stake →
          exampleCfgA1.pool.status = COLLECTING))) ∧
    (exampleCfgA0.pool.status = READY → exampleCfgA1.pool.status = READY)) :=
  c4_stake_status exampleCfgA0.pool 2000000 ⟨5, 2⟩ exampleCfgA1.pool
    exampleContributor ⟨5, 3⟩ (by decide)

/-- Claim C5: `withdraw_stake` while the pool is `ACTIVE` always aborts
with `E_WITHDRAWAL_NOT_ALLOWED`, regardless of amount, caller, or balance;
a successful withdrawal from `READY` reverts the status to `COLLECTING`
exactly when the resulting `total_stake` drops below `required_stake`, and
keeps `READY` otherwise. -/
theorem c5_withdraw_rules (pool : ValidatorPool) (c : Contributor) (a : Nat)
    (ctx : TxContext) (pool2 : ValidatorPool) (c2 : Contributor) (v : Nat) :
    (pool.status = ACTIVE →
      withdraw_stake pool c a ctx = .error (.abort E_WITHDRAWAL_NOT_ALLOWED)) ∧
    (pool.status = READY → withdraw_stake pool c a ctx = .ok (pool2, c2, v) →
      ((pool.total_stake - a < pool.required_stake →
         pool2.status = COLLECTING) ∧
       (pool.required_stake ≤ pool.total_stake - a →
         pool2.status = READY))) := by
  constructor
  · intro hA
    unfold withdraw_stake
    rw [hA]
    rw [if_pos (by simp [ACTIVE_eq, COLLECTING_eq, READY_eq])]
  · intro hR h
    obtain ⟨_, _, _, _, _, _, hout⟩ := withdraw_stake_ok h
    simp only [Prod.mk.injEq] at hout
    obtain ⟨hp2, _, _⟩ := hout
    subst hp2
    dsimp only
    constructor
    · intro hlt
      rw [if_pos ⟨hlt, hR⟩]
    · intro hge
      rw [if_neg fun hcond => absurd hcond.1 (by omega)]
      exact hR

/-- The pool left behind by withdrawing 1000 from `exampleCfgA1`. -/
def exampleWithdrawnPool : ValidatorPool :=
  { id := 0, required_stake := 2000000, total_stake := 1999000,
    operator := 7, operator_reward_pct := 10, status := COLLECTING,
    accumulated_reward := 0, reward_per_stake := 0, balance := 1999000 }

theorem c5_withdraw_rules_witness :
    withdraw_stake exampleCfgActive.pool exampleContributor 10 ⟨5, 9⟩
      = .error (.abort E_WITHDRAWAL_NOT_ALLOWED) ∧
    exampleWithdrawnPool.status = COLLECTING :=
  ⟨(c5_withdraw_rules exampleCfgActive.pool exampleContributor 10 ⟨5, 9⟩
      exampleWithdrawnPool exampleContributor 0).1 (by decide),
   ((c5_withdraw_rules exampleCfgA1.pool exampleContributor 1000 ⟨5, 9⟩
      exampleWithdrawnPool
      { exampleContributor with staked_amount := 1999000 } 1000).2
      (by decide) (by decide)).1 (by decide)⟩

/-- Claim C6: a successful `claim_operator_reward` computes
`operator_share = accumulated_reward * operator_reward_pct / 100`; when the
share is positive it zeroes `accumulated_reward` entirely, deducts exactly
the share from the balance and pays it out; when the share is zero it pays
zero and mutates nothing. -/
theorem c6_claim_operator_reward (pool pool2 : ValidatorPool)
    (cap : OperatorCap) (ctx : TxContext) (payout : Nat)
    (h : claim_operator_reward pool cap ctx = .ok (pool2, payout)) :
    (0 < pool.accumulated_reward * pool.operator_reward_pct / 100 →
      payout = pool.accumulated_reward * pool.operator_reward_pct / 100 ∧
      pool2 = { pool with
        accumulated_reward := 0
        balance := pool.balance -
          pool.accumulated_reward * pool.operator_reward_pct / 100 }) ∧
    (pool.accumulated_reward * pool.operator_reward_pct / 100 = 0 →
      payout = 0 ∧ pool2 = pool) := by
  obtain ⟨_, _, _, hcase⟩ := claim_operator_reward_ok h
  rcases hcase with ⟨hz, hout⟩ | ⟨hpos, hsplit, hout⟩ <;>
    simp only [Prod.mk.injEq] at hout <;>
    obtain ⟨hp, hv⟩ := hout <;> subst hp <;> subst hv
  · exact ⟨fun hc => absurd hz (by omega), fun _ => ⟨rfl, rfl⟩⟩
  · exact ⟨fun _ => ⟨rfl, rfl⟩, fun hz => absurd hpos (by omega)⟩

/-- An `ACTIVE` pool holding 100 of recorded reward (10% operator cut). -/
def examplePoolRewarded : ValidatorPool :=
  { id := 0, required_stake := 1000, total_stake := 1000, operator := 7,
    operator_reward_pct := 10, status := ACTIVE, accumulated_reward := 100,
    reward_per_stake := 100000, balance := 1100 }

/-- `examplePoolRewarded` after the operator claimed the 10-unit share. -/
def examplePoolOpClaimed : ValidatorPool :=
  { id := 0, required_stake := 1000, total_stake := 1000, operator := 7,
    operator_reward_pct := 10, status := ACTIVE, accumulated_reward := 0,
    reward_per_stake := 100000, balance := 1090 }

/-- An `ACTIVE` pool whose accumulated reward rounds the operator share to
zero. -/
def examplePoolSmallAcc : ValidatorPool :=
  { id := 0, required_stake := 1000, total_stake := 1000, operator := 7,
    operator_reward_pct := 10, status := ACTIVE, accumulated_reward := 5,
    reward_per_stake := 0, balance := 1005 }

theorem c6_claim_operator_reward_witness :
    (10 = examplePoolRewarded.accumulated_reward *
        examplePoolRewarded.operator_reward_pct / 100 ∧
     examplePoolOpClaimed = { examplePoolRewarded with
       accumulated_reward := 0
       balance := examplePoolRewarded.balance -
         examplePoolRewarded.accumulated_reward *
           examplePoolRewarded.operator_reward_pct / 100 }) ∧
    (0 = 0 ∧ examplePoolSmallAcc = examplePoolSmallAcc) :=
  ⟨(c6_claim_operator_reward examplePoolRewarded examplePoolOpClaimed
      exampleCap ⟨7, 9⟩ 10 (by decide)).1 (by decide),
   (c6_claim_operator_reward examplePoolSmallAcc examplePoolSmallAcc
      exampleCap ⟨7, 9⟩ 0 (by decide)).2 (by decide)⟩

/-- An aborted operation leaves the configuration — every pool field and
every contributor record — exactly as it was: the transaction semantics
(`execOp`) keep the old configuration whenever `applyOp` fails. -/
def AbortsRollBack : Prop :=
  ∀ (op : Op) (cfg : Config) (e : Err),
    applyOp op cfg = .error e → execOp op cfg = cfg

/-- `record_reward` on a non-`ACTIVE` pool aborts with `E_INVALID_STATE`
(so `accumulated_reward`, `reward_per_stake` and `balance` are untouched). -/
def RecordRewardInactiveFails : Prop :=
  ∀ (pool : ValidatorPool) (r : Nat),
    pool.status ≠ ACTIVE →
      record_reward pool r = .error (.abort E_INVALID_STATE)

/-- Claim C7: failure atomicity — every failing operation leaves every
field of the pool and of every contributor record unchanged and moves no
value; in particular `record_reward` on a non-`ACTIVE` pool fails with the
invalid-state abort and leaves `accumulated_reward`, `reward_per_stake` and
`balance` unchanged. -/
theorem c7_failure_atomicity : AbortsRollBack ∧ RecordRewardInactiveFails := by
  constructor
  · intro op cfg e h
    unfold execOp
    rw [h]
  · intro pool r hna
    unfold record_reward
    rw [if_pos hna]

theorem c7_failure_atomicity_witness :
    execOp (.opRecordReward 5) exampleCfg = exampleCfg ∧
    record_reward exampleCfg.pool 5 = .error (.abort E_INVALID_STATE) :=
  ⟨c7_failure_atomicity.1 (.opRecordReward 5) exampleCfg
      (.abort E_INVALID_STATE) (by decide),
   c7_failure_atomicity.2 exampleCfg.pool 5 (by decide)⟩

/-- Claim C8 (amended): `create_pool` aborts with the zero-amount code
`E_ZERO_AMOUNT` (1004) — the module has no separate invalid-argument code —
whenever `required_stake = 0` or `operator_reward_pct > 100`; on success it
returns a pool with `total_stake = accumulated_reward = reward_per_stake =
balance = 0`, status `COLLECTING`, operator set to the caller, together
with an `OperatorCap` bound to that pool's id. -/
theorem c8_create_pool_checks (rs pct : Nat) (ctx : TxContext)
    (pool : ValidatorPool) (cap : OperatorCap) (ctx2 : TxContext) :
    ((rs = 0 ∨ 100 < pct) →
      create_pool rs pct ctx = .error (.abort E_ZERO_AMOUNT)) ∧
    (create_pool rs pct ctx = .ok (pool, cap, ctx2) →
      pool.total_stake = 0 ∧ pool.accumulated_reward = 0 ∧
      pool.reward_per_stake = 0 ∧ pool.balance = 0 ∧
      pool.status = COLLECTING ∧ pool.operator = ctx.sender ∧
      cap.pool_id = pool.id) := by
  constructor
  · intro hbad
    unfold create_pool
    by_cases hp : pct ≤ 100
    · rw [if_neg (not_not_intro hp)]
      rw [if_pos (by omega)]
    · rw [if_pos hp]
  · intro h
    obtain ⟨h1, h2, hout⟩ := create_pool_ok h
    simp only [Prod.mk.injEq] at hout
    obtain ⟨hp, hc, _⟩ := hout
    subst hp
    subst hc
    exact ⟨rfl, rfl, rfl, rfl, rfl, rfl, rfl⟩

theorem c8_create_pool_checks_witness :
    create_pool 0 10 ⟨7, 0⟩ = .error (.abort E_ZERO_AMOUNT) ∧
    (examplePool.total_stake = 0 ∧ examplePool.accumulated_reward = 0 ∧
     examplePool.reward_per_stake = 0 ∧ examplePool.balance = 0 ∧
     examplePool.status = COLLECTING ∧
     examplePool.operator = TxContext.sender ⟨7, 0⟩ ∧
     exampleCap.pool_id = examplePool.id) :=
  ⟨(c8_create_pool_checks 0 10 ⟨7, 0⟩ examplePool exampleCap ⟨7, 2⟩).1
      (Or.inl rfl),
   (c8_create_pool_checks 1000 10 ⟨7, 0⟩ examplePool exampleCap ⟨7, 2⟩).2
      (by decide)⟩

/-- Claim C8 counterexample: `create_pool` with `required_stake = 0` (and
likewise with `operator_reward_pct > 100`) aborts with code
`E_ZERO_AMOUNT = 1004` — the very code of the zero-amount error kind, not a
distinct invalid-argument kind, refuting the claim's "distinct from
ZeroAmount". -/
theorem c8_counterexample :
    create_pool 0 10 ⟨7, 0⟩ = .error (.abort E_ZERO_AMOUNT) ∧
    create_pool 1000 101 ⟨7, 0⟩ = .error (.abort E_ZERO_AMOUNT) ∧
    E_ZERO_AMOUNT = 1004 :=
  ⟨by decide, by decide, rfl⟩

theorem claim_reward_spec {pool : ValidatorPool} {c : Contributor}
    {ctx : TxContext}
    (hst : pool.status = ACTIVE) (hown : c.owner = ctx.sender)
    (hm : c.staked_amount * pool.reward_per_stake < U64_SIZE)
    (hdd : c.reward_debt ≤ c.staked_amount * pool.reward_per_stake / 1000000)
    (hpct : pool.operator_reward_pct ≤ 100)
    (hm2 : (c.staked_amount * pool.reward_per_stake / 1000000 - c.reward_debt)
      * (100 - pool.operator_reward_pct) < U64_SIZE)
    (hsplit : (c.staked_amount * pool.reward_per_stake / 1000000
        - c.reward_debt) * (100 - pool.operator_reward_pct) / 100
      ≤ pool.balance) :
    claim_reward pool c ctx =
      if 0 < c.staked_amount * pool.reward_per_stake / 1000000
          - c.reward_debt then
        .ok ({ pool with balance := pool.balance -
                 (c.staked_amount * pool.reward_per_stake / 1000000
                   - c.reward_debt) * (100 - pool.operator_reward_pct) / 100 },
             { c with reward_debt :=
                 c.staked_amount * pool.reward_per_stake / 1000000 },
             (c.staked_amount * pool.reward_per_stake / 1000000
               - c.reward_debt) * (100 - pool.operator_reward_pct) / 100)
      else .ok (pool, c, 0) := by
  unfold claim_reward
  rw [if_neg (not_not_intro hst), if_neg (not_not_intro hown)]
  rw [mul64_eq_ok hm]
  dsimp only
  rw [sub64_eq_ok hdd]
  dsimp only
  by_cases hP : 0 < c.staked_amount * pool.reward_per_stake / 1000000
      - c.reward_debt
  · rw [if_pos hP, if_pos hP]
    rw [sub64_eq_ok hpct]
    dsimp only
    rw [mul64_eq_ok hm2]
    dsimp only
    rw [splitBalance_eq_ok hsplit]
  · rw [if_neg hP, if_neg hP]

theorem claim_reward_settled {pool : ValidatorPool} {c : Contributor}
    {ctx : TxContext}
    (hst : pool.status = ACTIVE) (hown : c.owner = ctx.sender)
    (hm : c.staked_amount * pool.reward_per_stake < U64_SIZE)
    (hset : c.reward_debt
      = c.staked_amount * pool.reward_per_stake / 1000000) :
    claim_reward pool c ctx = .ok (pool, c, 0) := by
  have hz : c.staked_amount * pool.reward_per_stake / 1000000
      - c.reward_debt = 0 := by
    rw [hset]
    exact Nat.sub_self _
  unfold claim_reward
  rw [if_neg (not_not_intro hst), if_neg (not_not_intro hown),
    mul64_eq_ok hm]
  dsimp only
  rw [sub64_eq_ok (le_of_eq hset)]
  dsimp only
  rw [hz]
  rw [if_neg (lt_irrefl 0)]

/-- Claim C3: round trip — after `create_pool S p`, a single stake of `S`,
activation, and `record_reward R` (`S > 0`, `R > 0`, `p ≤ 100`), the payout
of `claim_reward` is exactly
`R * 1000000 / S * S / 1000000 * (100 - p) / 100` (each division
truncating), and a second immediate `claim_reward` with no intervening
reward succeeds with payout 0 and mutates neither the pool nor the
record. -/
theorem c3_round_trip (S R p : Nat)
    (ctxA ctxB ctxC ctxD ctxE ctxA2 ctxB2 : TxContext)
    (pool0 pool1 pool2 pool3 : ValidatorPool) (cap : OperatorCap)
    (c : Contributor)
    (hS : 0 < S) (hR : 0 < R) (hp : p ≤ 100)
    (h0 : create_pool S p ctxA = .ok (pool0, cap, ctxA2))
    (h1 : stake pool0 S ctxB = .ok (pool1, c, ctxB2))
    (h2 : activate_pool pool1 cap ctxC = .ok pool2)
    (h3 : record_reward pool2 R = .ok pool3)
    (hD : ctxD.sender = c.owner) (hE : ctxE.sender = c.owner) :
    ∃ (pool4 : ValidatorPool) (c4 : Contributor),
      claim_reward pool3 c ctxD =
        .ok (pool4, c4, R * 1000000 / S * S / 1000000 * (100 - p) / 100) ∧
      claim_reward pool4 c4 ctxE = .ok (pool4, c4, 0) := by
  obtain ⟨_, _, hout0⟩ := create_pool_ok h0
  simp only [Prod.mk.injEq] at hout0
  obtain ⟨hpool0, hcap0, _⟩ := hout0
  subst hpool0
  obtain ⟨hst1, _, hb1, ht1, hm1, hout1⟩ := stake_ok h1
  simp only [Prod.mk.injEq] at hout1
  obtain ⟨hpool1, hc1, _⟩ := hout1
  subst hpool1
  subst hc1
  obtain ⟨hst2, _, hpool2⟩ := activate_pool_ok h2
  subst hpool2
  obtain ⟨hst3, _, hb3, hacc3, hcase3⟩ := record_reward_ok h3
  rcases hcase3 with ⟨hT3, hNum3, hRps3, hpool3⟩ | ⟨hT0, hpool3⟩
  swap
  · dsimp only at hT0
    omega
  subst hpool3
  dsimp only at hD hE ⊢
  simp only [Nat.zero_add, Nat.zero_mul, Nat.zero_div] at hD hE ⊢
  set PL : ValidatorPool :=
    { id := ctxA.fresh, required_stake := S, total_stake := S,
      operator := ctxA.sender, operator_reward_pct := p, status := ACTIVE,
      accumulated_reward := R, reward_per_stake := R * 1000000 / S,
      balance := S + R } with hPL
  set CC : Contributor :=
    { id := ctxB.fresh, pool_id := ctxA.fresh, owner := ctxB.sender,
      staked_amount := S, reward_debt := 0 } with hCC
  have k1 : S * (R * 1000000 / S) ≤ R * 1000000 := by
    rw [Nat.mul_comm]
    exact Nat.div_mul_le_self _ _
  have hm : CC.staked_amount * PL.reward_per_stake < U64_SIZE :=
    lt_of_le_of_lt k1 hNum3
  have hdd : CC.reward_debt ≤
      CC.staked_amount * PL.reward_per_stake / 1000000 := Nat.zero_le _
  have hpend_le : CC.staked_amount * PL.reward_per_stake / 1000000
      - CC.reward_debt ≤ R := by
    show S * (R * 1000000 / S) / 1000000 - 0 ≤ R
    generalize hW : S * (R * 1000000 / S) = W at k1
    omega
  have hm2 : (CC.staked_amount * PL.reward_per_stake / 1000000
      - CC.reward_debt) * (100 - PL.operator_reward_pct) < U64_SIZE := by
    have k4 : (CC.staked_amount * PL.reward_per_stake / 1000000
        - CC.reward_debt) * (100 - PL.operator_reward_pct) ≤ R * 100 :=
      Nat.mul_le_mul hpend_le (by show 100 - p ≤ 100; omega)
    have k5 : R * 100 ≤ R * 1000000 := Nat.mul_le_mul_left R (by norm_num)
    exact lt_of_le_of_lt (le_trans k4 k5) hNum3
  have hsplit : (CC.staked_amount * PL.reward_per_stake / 1000000
      - CC.reward_debt) * (100 - PL.operator_reward_pct) / 100
      ≤ PL.balance := by
    have k6 : (CC.staked_amount * PL.reward_per_stake / 1000000
        - CC.reward_debt) * (100 - PL.operator_reward_pct)
        ≤ (CC.staked_amount * PL.reward_per_stake / 1000000
          - CC.reward_debt) * 100 :=
      Nat.mul_le_mul_left _ (by show 100 - p ≤ 100; omega)
    have k7 : (CC.staked_amount * PL.reward_per_stake / 1000000
        - CC.reward_debt) * (100 - PL.operator_reward_pct) / 100
        ≤ (CC.staked_amount * PL.reward_per_stake / 1000000
          - CC.reward_debt) * 100 / 100 := Nat.div_le_div_right k6
    have k8 : (CC.staked_amount * PL.reward_per_stake / 1000000
        - CC.reward_debt) * 100 / 100
        = CC.staked_amount * PL.reward_per_stake / 1000000
          - CC.reward_debt := by
      generalize CC.staked_amount * PL.reward_per_stake / 1000000
        - CC.reward_debt = P
      omega
    rw [k8] at k7
    show _ ≤ S + R
    exact le_trans k7 (le_trans hpend_le (Nat.le_add_left R S))
  rw [claim_reward_spec rfl hD.symm hm hdd hp hm2 hsplit]
  by_cases hP : 0 < CC.staked_amount * PL.reward_per_stake / 1000000
      - CC.reward_debt
  · rw [if_pos hP]
    have hu : (CC.staked_amount * PL.reward_per_stake / 1000000
        - CC.reward_debt) * (100 - PL.operator_reward_pct) / 100
        = R * 1000000 / S * S / 1000000 * (100 - p) / 100 := by
      show (S * (R * 1000000 / S) / 1000000 - 0) * (100 - p) / 100 = _
      rw [Nat.sub_zero, Nat.mul_comm S (R * 1000000 / S)]
    rw [hu]
    refine ⟨_, _, rfl, ?_⟩
    exact claim_reward_settled rfl hE.symm hm rfl
  · rw [if_neg hP]
    have hbase0 : CC.staked_amount * PL.reward_per_stake / 1000000 = 0 := by
      have hP3 : ¬ 0 < S * (R * 1000000 / S) / 1000000 - 0 := hP
      show S * (R * 1000000 / S) / 1000000 = 0
      omega
    have hform0 : R * 1000000 / S * S / 1000000 * (100 - p) / 100 = 0 := by
      have hb2 : R * 1000000 / S * S / 1000000 = 0 := by
        rw [Nat.mul_comm (R * 1000000 / S) S]
        exact hbase0
      rw [hb2, Nat.zero_mul, Nat.zero_div]
    rw [hform0]
    refine ⟨_, _, rfl, ?_⟩
    exact claim_reward_settled rfl hE.symm hm hbase0.symm

/-- `examplePool` after a single stake of 1000 (threshold met). -/
def examplePoolReady : ValidatorPool :=
  { id := 0, required_stake := 1000, total_stake := 1000, operator := 7,
    operator_reward_pct := 10, status := READY, accumulated_reward := 0,
    reward_per_stake := 0, balance := 1000 }

/-- `examplePoolReady` after activation. -/
def examplePoolActiveSmall : ValidatorPool :=
  { id := 0, required_stake := 1000, total_stake := 1000, operator := 7,
    operator_reward_pct := 10, status := ACTIVE, accumulated_reward := 0,
    reward_per_stake := 0, balance := 1000 }

/-- The record minted by staking 1000 into `examplePool`. -/
def exampleClaimContributor : Contributor :=
  { id := 2, pool_id := 0, owner := 5, staked_amount := 1000,
    reward_debt := 0 }

theorem c3_round_trip_witness :
    ∃ (pool4 : ValidatorPool) (c4 : Contributor),
      claim_reward examplePoolRewarded exampleClaimContributor ⟨5, 9⟩ =
        .ok (pool4, c4,
          100 * 1000000 / 1000 * 1000 / 1000000 * (100 - 10) / 100) ∧
      claim_reward pool4 c4 ⟨5, 10⟩ = .ok (pool4, c4, 0) :=
  c3_round_trip 1000 100 10 ⟨7, 0⟩ ⟨5, 2⟩ ⟨7, 3⟩ ⟨5, 9⟩ ⟨5, 10⟩ ⟨7, 2⟩
    ⟨5, 3⟩ examplePool examplePoolReady examplePoolActiveSmall
    examplePoolRewarded exampleCap exampleClaimContributor
    (by decide) (by decide) (by decide) (by decide) (by decide) (by decide)
    (by decide) (by decide) (by decide)
